import Mathlib

/-!
Shallow embedding of the `tipgstac` route-override factory and settings
(`src/tipgstac/factory.py`, `src/tipgstac/settings.py`).

Python dicts built from key/value pairs are modelled as association lists
with Python's insertion semantics: a dict keeps the first-occurrence order
of keys and the last value written for each key.  Starlette `QueryParams`
are modelled as the decoded list of (key, value) pairs of the query string.
-/

namespace Tipgstac

/-- JSON-ish values as they appear inside features, rows and assembled
search requests.  `jnull` stands for Python `None` / JSON `null`. -/
inductive JVal where
  | jnull
  | jbool (b : Bool)
  | jnum (n : Int)
  | jstr (s : String)
  | jarr (elems : List JVal)
  | jobj (entries : List (String × JVal))

/-- Python `v is None` test on a JSON value. -/
def jvalIsNull : JVal → Bool
  | .jnull => true
  | _ => false

/-- Association-list lookup: value of the first entry with the given key,
mirroring Python `d[k]` / `d.get(k)` once keys are unique. -/
def lookupP {α : Type} (d : List (String × α)) (k : String) : Option α :=
  (d.find? (fun p => p.1 == k)).map (fun p => p.2)

/-- Python `k in d` test. -/
def hasKeyP {α : Type} (d : List (String × α)) (k : String) : Bool :=
  d.any (fun p => p.1 == k)

/-- Python `d[k] = v` on a dict (unique keys): overwrite in place when the
key exists, append otherwise. -/
def dictInsertP {α : Type} (d : List (String × α)) (k : String) (v : α) :
    List (String × α) :=
  if hasKeyP d k then d.map (fun p => if p.1 == k then (k, v) else p)
  else d ++ [(k, v)]

/-- Python `dict(pairs)` / `{**pairs}`: first-occurrence key order, last
value per key. -/
def pyDictP {α : Type} (l : List (String × α)) : List (String × α) :=
  l.foldl (fun d p => dictInsertP d p.1 p.2) []

/-- Python `d.pop(k)` result on a dict (the membership check is done by the
caller; this is the dict with the key removed). -/
def dictPopP {α : Type} (d : List (String × α)) (k : String) :
    List (String × α) :=
  d.filter (fun p => p.1 != k)

/-- Last value bound to a key in a raw pair list (what a Python dict built
from the pairs would hold for that key). -/
def lastVal {α : Type} (l : List (String × α)) (k : String) : Option α :=
  match l with
  | [] => none
  | p :: ps =>
    match lastVal ps k with
    | some v => some v
    | none => if p.1 == k then some p.2 else none

/-- Decoded query string of a request: ordered (key, value) pairs. -/
abbrev QS := List (String × String)

/-- Python `str.strip()` whitespace set. -/
def isPyWhitespace (c : Char) : Bool :=
  c == ' ' || c == '\t' || c == '\n' || c == '\r' || c == '\x0b' || c == '\x0c'

/-- Python `str.split(sep)` for a one-character separator, on character
lists: `"".split(",") == [""]` and empty runs between separators are
kept. -/
def splitOnChar (sep : Char) (cs : List Char) : List (List Char) :=
  match cs with
  | [] => [[]]
  | c :: rest =>
    let r := splitOnChar sep rest
    if c = sep then [] :: r
    else
      match r with
      | g :: gs => (c :: g) :: gs
      | [] => [[c]]

/-- Python `str.split(",")`. -/
def pySplitComma (s : String) : List String :=
  (splitOnChar ',' s.toList).map String.mk

/-- Python `str.strip()`. -/
def pyStrip (s : String) : String :=
  String.mk (((s.toList.dropWhile isPyWhitespace).reverse.dropWhile
    isPyWhitespace).reverse)

/-- Python truthy fallback `a or b` on an optional string (`None` and `""`
are falsy). -/
def pyOrStr (a : Option String) (b : String) : String :=
  match a with
  | some s => if s = "" then b else s
  | none => b

/-- Errors raised by the handlers.  `keyError`, `valueError` and
`jsonDecodeError` are uncaught Python exceptions; the other three are the
client-facing `tipg` error kinds (`NoPrimaryKey` is the code's name for the
spec's MissingPrimaryKey). -/
inductive PyError where
  | keyError
  | valueError
  | jsonDecodeError
  | invalidDatetime (msg : String)
  | noPrimaryKey (msg : String)
  | notFound (msg : String)
deriving DecidableEq, Repr

/-- Negotiated output media types of the item/search routes. -/
inductive MediaType where
  | geojson
  | html
  | csv
  | json
  | geojsonseq
  | ndjson
deriving DecidableEq, Repr

/-- A feature/item of a paged result envelope.  `geometry` is the Python
value of `f.get("geometry", None)` (`jnull` when absent or null). -/
structure Feature where
  id : String
  collection : String
  properties : List (String × JVal)
  geometry : JVal

/-- Paged result envelope returned by the PgSTAC backend. -/
structure ItemList where
  items : List Feature
  matched : Nat
  next : Option String
  prev : Option String

/-- A response link.  `href` is split into its path and its decoded query
pairs; `title` is optional because the single-item links carry none. -/
structure Link where
  path : String
  query : QS
  rel : String
  type : String
  title : Option String
deriving DecidableEq, Repr

/-- Collection descriptor (the fields of `PgSTACCollection` the handlers
read). -/
structure PgSTACCollection where
  id : String
  title : Option String
  description : Option String
  id_column : Option String

/-- One `{field, direction}` entry of a parsed `sortby` string. -/
structure SortField where
  field : String
  direction : String
deriving DecidableEq, Repr

/-! ### Sort parsing (factory.py lines 553-567) -/

/-- Model of `re.match("^(?P<direction>[+-]?)(?P<prop>.*)$", s)` with Python
semantics: `.` does not match a newline and `$` matches at the end of the
string or just before a single trailing newline, so a term containing a
newline anywhere but at its very end fails to match.  Returns the matched
(direction, prop) groups.  Worked out on the character list of the
term. -/
def sortSign (cs : List Char) : List Char :=
  if cs.head? = some '+' ∨ cs.head? = some '-' then cs.take 1 else []

/-- The `$`-anchor treatment: one trailing newline may sit after what `.*`
matched. -/
def sortBody (rest : List Char) : List Char :=
  if rest.getLast? = some '\n' then rest.dropLast else rest

def reMatchSortTerm (s : String) : Option (String × String) :=
  let sign := sortSign s.toList
  let rest := s.toList.drop sign.length
  let body := sortBody rest
  if body.any (fun c => c = '\n') then none
  else some (String.mk sign, String.mk body)

/-- One iteration of the `sortby` loop, per term: the sort entry a term
contributes, or `none` for a term the regex rejects. -/
def sortTermParse (t : String) : Option SortField :=
  match reMatchSortTerm t with
  | some (direction, prop) =>
    some { field := pyStrip prop,
           direction := if direction = "-" then "desc" else "asc" }
  | none => none

/-- The `sortby` loop of `get_search`: strip the whole string, split on
commas, and for each term that the regex matches emit
`{field: prop.strip(), direction: "desc" if sign == "-" else "asc"}`. -/
def parseSortby (sortby : String) : List SortField :=
  (pySplitComma (pyStrip sortby)).foldl
    (fun acc s =>
      match reMatchSortTerm s with
      | some (direction, prop) =>
        acc ++ [{ field := pyStrip prop,
                  direction := if direction = "-" then "desc" else "asc" }]
      | none => acc) []

/-! ### Datetime validation (factory.py lines 512-535) -/

/-- Modelled from the spec: the boundary RFC 3339 parser
(`ciso8601.parse_rfc3339`, an external dependency) restricted to UTC
second-precision instants `YYYY-MM-DDTHH:MM:SSZ`.  The returned integer is
the digit string read as a number, which orders chronologically for this
fixed-width format.  Used only to instantiate theorems whose statements
take the parser as a parameter. -/
def parse_rfc3339 (s : String) : Option Int :=
  match s.toList with
  | [y1, y2, y3, y4, '-', m1, m2, '-', d1, d2, 'T',
     h1, h2, ':', n1, n2, ':', s1, s2, 'Z'] =>
    let ds := [y1, y2, y3, y4, m1, m2, d1, d2, h1, h2, n1, n2, s1, s2]
    if ds.all Char.isDigit then
      some (Int.ofNat (ds.foldl (fun a c => a * 10 + (c.toNat - 48)) 0))
    else none
  | _ => none

/-- One end of a datetime interval: open markers `".."` and `""` give
`none`; anything else goes through the parser, whose failure raises
`ValueError`. -/
def parsePart (parse : String → Option Int) (s : String) :
    Except PyError (Option Int) :=
  if s = ".." || s = "" then .ok none
  else
    match parse s with
    | some v => .ok (some v)
    | none => .error .valueError

/-- The datetime block of `get_search`: for a truthy `datetime_filter`,
validate two-part intervals (both ends open, or start after end, raise
`InvalidDatetime`) and rejoin the parts with `"/"`.  Returns the string
that `datetime_filter` is reassigned to (or `none` when the block is
skipped). -/
def getSearchDatetime (parse : String → Option Int)
    (datetime_filter : Option (List String)) :
    Except PyError (Option String) :=
  match datetime_filter with
  | none => .ok none
  | some dtf =>
    if dtf = [] then .ok none
    else
      match dtf with
      | [a, b] => do
        let s ← parsePart parse a
        let e ← parsePart parse b
        match s, e with
        | none, none =>
          .error (.invalidDatetime
            "Double open-ended datetime intervals are not allowed.")
        | some sv, some ev =>
          if sv > ev then
            .error (.invalidDatetime
              "Start datetime cannot be before end datetime.")
          else .ok (some (String.intercalate "/" dtf))
        | _, _ => .ok (some (String.intercalate "/" dtf))
      | _ => .ok (some (String.intercalate "/" dtf))

/-! ### Search-request assembly (factory.py lines 537-577) -/

/-- Python values held by the `base_args` dict of `get_search`. -/
inductive PyVal where
  | vNone
  | vInt (n : Nat)
  | vStr (s : String)
  | vStrList (l : List String)
  | vNumList (l : List Rat)
  | vJson (j : JVal)
  | vSortList (l : List SortField)
  | vFields (incl excl : List String)

/-- A `json.loads` result as the Python value it becomes (`null` is
`None`). -/
def pyOfJson (j : JVal) : PyVal :=
  match j with
  | .jnull => .vNone
  | j => .vJson j

/-- Python `v is None`. -/
def pyValIsNone : PyVal → Bool
  | .vNone => true
  | _ => false

/-- Python `v == []` (only lists compare equal to the empty list). -/
def pyValIsEmptyList : PyVal → Bool
  | .vStrList [] => true
  | .vNumList [] => true
  | .vSortList [] => true
  | .vJson (.jarr []) => true
  | _ => false

/-- An `Optional[List[str]]` as a Python value. -/
def optStrList (o : Option (List String)) : PyVal :=
  match o with
  | none => .vNone
  | some l => .vStrList l

/-- The `"query"` value of `base_args`: `json.loads(unquote_plus(query)) if
query else query` (truthiness: `None` and `""` skip the parse). -/
def queryValOf (jsonLoads : String → Option JVal) (unquote : String → String)
    (query : Option String) : Except PyError PyVal :=
  match query with
  | none => .ok PyVal.vNone
  | some q =>
    if q = "" then .ok (PyVal.vStr "")
    else
      match jsonLoads (unquote q) with
      | some j => .ok (pyOfJson j)
      | none => .error PyError.jsonDecodeError

/-- The `filter`/`filter-lang` entries added when a CQL filter was
supplied: `json.loads(to_cql2(cql_filter))` and `"cql2-json"`. -/
def cqlArgsOf (α : Type) (to_cql2 : α → String)
    (jsonLoads : String → Option JVal) (cql_filter : Option α) :
    Except PyError (List (String × PyVal)) :=
  match cql_filter with
  | none => .ok []
  | some ast =>
    match jsonLoads (to_cql2 ast) with
    | some j =>
      .ok [("filter", pyOfJson j), ("filter-lang", PyVal.vStr "cql2-json")]
    | none => .error PyError.jsonDecodeError

/-- The `datetime` entry added when the (reassigned) `datetime_filter`
string is truthy. -/
def dtArgsOf (dtJoined : Option String) : List (String × PyVal) :=
  match dtJoined with
  | some s => if s = "" then [] else [("datetime", PyVal.vStr s)]
  | none => []

/-- The `sortby` entry added when the `sortby` string is truthy. -/
def sortArgsOf (sortby : Option String) : List (String × PyVal) :=
  match sortby with
  | some s =>
    if s = "" then [] else [("sortby", PyVal.vSortList (parseSortby s))]
  | none => []

/-- The `fields` entry added when a non-empty property list is supplied:
include set = `set(properties)` (modelled as the deduplicated list), empty
exclude set. -/
def fieldsArgsOf (properties : Option (List String)) :
    List (String × PyVal) :=
  match properties with
  | some ps =>
    if ps = [] then [] else [("fields", PyVal.vFields ps.dedup [])]
  | none => []

/-- The six unconditional `base_args` entries. -/
def baseArgsOf (collections_filter ids_filter : Option (List String))
    (bbox_filter : Option (List Rat)) (limit defaultLimit : Nat)
    (offset : Option String) (queryVal : PyVal) : List (String × PyVal) :=
  [("collections", optStrList collections_filter),
   ("ids", optStrList ids_filter),
   ("bbox", match bbox_filter with
            | none => PyVal.vNone
            | some l => PyVal.vNumList l),
   ("limit", PyVal.vInt (if limit = 0 then defaultLimit else limit)),
   ("token", match offset with
             | none => PyVal.vNone
             | some t => PyVal.vStr t),
   ("query", queryVal)]

/-- The filter of the final clean-up loop: keep values that are neither
`None` nor `== []`. -/
def keepArg (p : String × PyVal) : Bool :=
  !pyValIsNone p.2 && !pyValIsEmptyList p.2

/-- Validation and assembly of the `get_search` handler (lines 512-577):
datetime validation, `base_args` construction (with the conditional
`filter`, `datetime`, `sortby` and `fields` entries appended in source
order), and the final clean-up that drops `None` and `[]` values.
`α` is the type of the abstract CQL filter syntax tree; `to_cql2`,
`jsonLoads`, `unquote` and `parse` are the external boundary functions
(`pygeofilter.to_cql2`, `json.loads`, `urllib.unquote_plus`,
`ciso8601.parse_rfc3339`). -/
def getSearchPrepare (α : Type) (to_cql2 : α → String)
    (jsonLoads : String → Option JVal) (unquote : String → String)
    (parse : String → Option Int) (defaultLimit : Nat)
    (collections_filter : Option (List String))
    (ids_filter : Option (List String)) (bbox_filter : Option (List Rat))
    (datetime_filter : Option (List String))
    (properties : Option (List String)) (cql_filter : Option α)
    (sortby : Option String) (query : Option String)
    (limit : Nat) (offset : Option String) :
    Except PyError (List (String × PyVal)) := do
  let dtJoined ← getSearchDatetime parse datetime_filter
  let queryVal ← queryValOf jsonLoads unquote query
  let cqlArgs ← cqlArgsOf α to_cql2 jsonLoads cql_filter
  Except.ok
    ((baseArgsOf collections_filter ids_filter bbox_filter limit
        defaultLimit offset queryVal ++
      cqlArgs ++ dtArgsOf dtJoined ++ sortArgsOf sortby ++
      fieldsArgsOf properties).filter keepArg)

/-! ### Pagination links (factory.py lines 188-240, 624-655, 785-816) -/

/-- The `next` link: `QueryParams({**request.query_params, "offset":
next_token})`, i.e. the query pairs collapsed to a dict and `offset`
overwritten. -/
def nextPageLink (path : String) (qs : QS) (t : String) : Link :=
  { path := path, query := dictInsertP (pyDictP qs) "offset" t,
    rel := "next", type := "application/geo+json", title := some "Next page" }

/-- The `prev` link: `qp = dict(request.query_params); qp.pop("offset");
QueryParams({**qp, "offset": prev_token})`. -/
def prevPageLink (path : String) (qs : QS) (t : String) : Link :=
  { path := path,
    query := dictInsertP (dictPopP (pyDictP qs) "offset") "offset" t,
    rel := "prev", type := "application/geo+json",
    title := some "Previous page" }

/-- The shared next/prev block of the three handlers: a truthy `next` token
appends a next link; a non-`None` `prev` token pops `offset` from the query
dict (raising `KeyError` when absent) and appends a prev link. -/
def paginationLinks (path : String) (qs : QS) (next prev : Option String) :
    Except PyError (List Link) :=
  let withNext : List Link :=
    match next with
    | some t => if t = "" then [] else [nextPageLink path qs t]
    | none => []
  match prev with
  | some t =>
    if hasKeyP (pyDictP qs) "offset" then
      .ok (withNext ++ [prevPageLink path qs t])
    else .error .keyError
  | none => .ok withNext

/-- The next-link list a truthy `next` token contributes. -/
def nextLinkList (path : String) (qs : QS) (next : Option String) :
    List Link :=
  match next with
  | some t => if t = "" then [] else [nextPageLink path qs t]
  | none => []

/-- The prev-link list a non-`None` `prev` token contributes. -/
def prevLinkList (path : String) (qs : QS) (prev : Option String) :
    List Link :=
  match prev with
  | some t => [prevPageLink path qs t]
  | none => []

/-- The collection link of the items route. -/
def itemsCollectionLink (cid : String) : Link :=
  { path := "/collections/" ++ cid, query := [], rel := "collection",
    type := "application/json", title := some "Collection" }

/-- The self link of the items route (`url_for(...) + qs`). -/
def itemsSelfLink (cid : String) (qs : QS) : Link :=
  { path := "/collections/" ++ cid ++ "/items", query := qs, rel := "self",
    type := "application/geo+json", title := some "Items" }

/-- The `links` list of the items handler (lines 188-240). -/
def itemsLinks (c : PgSTACCollection) (qs : QS) (env : ItemList) :
    Except PyError (List Link) :=
  match paginationLinks ("/collections/" ++ c.id ++ "/items") qs
      env.next env.prev with
  | .error e => .error e
  | .ok pl => .ok ([itemsCollectionLink c.id, itemsSelfLink c.id qs] ++ pl)

/-- The `links` list of the search handlers (lines 624-655 and 785-816);
both target the GET search route. -/
def searchLinks (qs : QS) (env : ItemList) : Except PyError (List Link) :=
  paginationLinks "/search" qs env.next env.prev

/-! ### Row flattening (factory.py lines 150-162, 586-598, 747-759) -/

/-- A flattened CSV/JSON/NDJSON row. -/
abbrev Row := List (String × JVal)

/-- The row generator of the items and search handlers: build the dict
`{"collectionId": cid, "itemId": f.get("id"), **f.get("properties", {}),
"geometry": f.get("geometry", None)}` and drop every entry whose value is
`None`. -/
def flattenFeature (cid : String) (f : Feature) : Row :=
  (pyDictP ([("collectionId", JVal.jstr cid), ("itemId", JVal.jstr f.id)] ++
    f.properties ++ [("geometry", f.geometry)])).filter
    (fun p => !jvalIsNull p.2)

/-- The single-item row (lines 376-383): no `None` filtering, and a present
geometry is wrapped in a one-element tuple (modelled as a one-element JSON
sequence). -/
def singleItemRow (cid : String) (f : Feature) : Row :=
  let row := pyDictP
    ([("collectionId", JVal.jstr cid), ("itemId", JVal.jstr f.id)] ++
      f.properties)
  if jvalIsNull f.geometry then row
  else dictInsertP row "geometry" (JVal.jarr [f.geometry])

/-! ### Handlers -/

/-- The GeoJSON `FeatureCollection` payload of the items handler.
Per-feature links are elided; `features` holds the envelope's items. -/
structure ItemsFC where
  id : String
  title : String
  description : String
  numberMatched : Nat
  numberReturned : Nat
  links : List Link
  features : List Feature

/-- Responses of the items handler, tagged by media type. -/
inductive ItemsResp where
  | csvRows (rows : List Row)
  | jsonRowsArr (rows : List Row)
  | ndjsonRows (rows : List Row)
  | htmlPage (d : ItemsFC)
  | seqStream (d : ItemsFC)
  | geojsonFC (d : ItemsFC)

/-- The items handler (`items`, lines 74-300) after the backend call:
CSV/JSON/NDJSON return flattened rows before any link is built; the other
output types build the links (which may raise `KeyError`) and the
FeatureCollection payload. -/
def itemsHandler (c : PgSTACCollection) (qs : QS)
    (output_type : Option MediaType) (env : ItemList) :
    Except PyError ItemsResp :=
  let ot := output_type.getD .geojson
  if ot = .csv || ot = .json || ot = .ndjson then
    let rows := env.items.map (fun f => flattenFeature c.id f)
    .ok (if ot = .csv then .csvRows rows
         else if ot = .json then .jsonRowsArr rows
         else .ndjsonRows rows)
  else
    match itemsLinks c qs env with
    | .error e => .error e
    | .ok links =>
      let d : ItemsFC :=
        { id := c.id, title := pyOrStr c.title c.id,
          description := pyOrStr c.description (pyOrStr c.title c.id),
          numberMatched := env.matched,
          numberReturned := env.items.length,
          links := links, features := env.items }
      .ok (if ot = .html then .htmlPage d
           else if ot = .geojsonseq then .seqStream d
           else .geojsonFC d)

/-- The search FeatureCollection payload: its `description` echoes the
request's query parameters (the dict passed to `json.dumps`). -/
structure SearchFC where
  description : QS
  numberMatched : Nat
  numberReturned : Nat
  links : List Link
  features : List Feature

/-- Responses of the search handlers. -/
inductive SearchResp where
  | csvRows (rows : List Row)
  | jsonRowsArr (rows : List Row)
  | ndjsonRows (rows : List Row)
  | htmlPage (d : SearchFC)
  | seqStream (d : SearchFC)
  | geojsonFC (d : SearchFC)

/-- Rendering shared verbatim by `get_search` (lines 581-711) and
`post_search` (lines 742-872): rows use each feature's own `collection`
field; the other output types build search links. -/
def searchRender (qs : QS) (ot : MediaType) (env : ItemList) :
    Except PyError SearchResp :=
  if ot = .csv || ot = .json || ot = .ndjson then
    let rows := env.items.map (fun f => flattenFeature f.collection f)
    .ok (if ot = .csv then .csvRows rows
         else if ot = .json then .jsonRowsArr rows
         else .ndjsonRows rows)
  else
    match searchLinks qs env with
    | .error e => .error e
    | .ok links =>
      let d : SearchFC :=
        { description := pyDictP qs, numberMatched := env.matched,
          numberReturned := env.items.length,
          links := links, features := env.items }
      .ok (if ot = .html then .htmlPage d
           else if ot = .geojsonseq then .seqStream d
           else .geojsonFC d)

/-- The GET `/search` handler (`get_search`, lines 462-711): validate and
assemble the search request, call the backend with it, render. -/
def getSearchHandler (α : Type) (to_cql2 : α → String)
    (jsonLoads : String → Option JVal) (unquote : String → String)
    (parse : String → Option Int) (defaultLimit : Nat)
    (backend : List (String × PyVal) → ItemList) (qs : QS)
    (collections_filter : Option (List String))
    (ids_filter : Option (List String)) (bbox_filter : Option (List Rat))
    (datetime_filter : Option (List String))
    (properties : Option (List String)) (cql_filter : Option α)
    (sortby : Option String) (query : Option String)
    (limit : Nat) (offset : Option String)
    (output_type : Option MediaType) : Except PyError SearchResp :=
  let ot := output_type.getD .geojson
  match getSearchPrepare α to_cql2 jsonLoads unquote parse defaultLimit
      collections_filter ids_filter bbox_filter datetime_filter properties
      cql_filter sortby query limit offset with
  | .error e => .error e
  | .ok clean => searchRender qs ot (backend clean)

/-- The POST `/search` handler (`post_search`, lines 731-872): the body
`search` (of arbitrary model type `β`) goes to the backend; everything
rendered — including every link — is built from the result envelope and
the request's URL query parameters. -/
def postSearchHandler (β : Type) (backend : β → ItemList) (search : β)
    (qs : QS) (output_type : Option MediaType) :
    Except PyError SearchResp :=
  searchRender qs (output_type.getD .geojson) (backend search)

/-- Links of a search response, when the output type carries any. -/
def searchRespLinks : SearchResp → Option (List Link)
  | .htmlPage d => some d.links
  | .seqStream d => some d.links
  | .geojsonFC d => some d.links
  | _ => none

/-! ### Single-item handler (factory.py lines 321-441) -/

/-- The two links of the single-item GeoJSON response (no titles in the
source dicts). -/
def itemLinks (c : PgSTACCollection) (itemId : String) : List Link :=
  [{ path := "/collections/" ++ c.id, query := [], rel := "collection",
     type := "application/json", title := none },
   { path := "/collections/" ++ c.id ++ "/items/" ++ itemId, query := [],
     rel := "self", type := "application/geo+json", title := none }]

/-- Responses of the single-item handler.  GeoJSON-sequence negotiation
falls through to the GeoJSON default here. -/
inductive ItemResp where
  | csvRows (rows : List Row)
  | jsonOne (row : Row)
  | ndjsonRows (rows : List Row)
  | htmlPage (f : Feature) (links : List Link)
  | geojsonFeature (f : Feature) (links : List Link)

/-- The single-item handler (`item`): `NoPrimaryKey` when the collection
has no id column, delegate to the collection's feature search with
`ids_filter=[itemId]`, `NotFound` on an empty result, then render one
feature. -/
def itemHandler (c : PgSTACCollection) (itemId : String)
    (backend : List String → ItemList) (output_type : Option MediaType) :
    Except PyError ItemResp :=
  if c.id_column.isNone then
    .error (.noPrimaryKey "No primary key is set on this table")
  else
    let ot := output_type.getD .geojson
    let il := backend [itemId]
    match il.items with
    | [] =>
      .error (.notFound ("Item " ++ itemId ++ " in Collection " ++ c.id ++
        " does not exist."))
    | feature :: _ =>
      if ot = .csv || ot = .json || ot = .ndjson then
        let row := singleItemRow c.id feature
        .ok (if ot = .csv then .csvRows [row]
             else if ot = .json then .jsonOne row
             else .ndjsonRows [row])
      else if ot = .html then .ok (.htmlPage feature (itemLinks c itemId))
      else .ok (.geojsonFeature feature (itemLinks c itemId))

/-- Rows of a single-item response, when the output type is a row
format. -/
def itemRespRows : ItemResp → Option (List Row)
  | .csvRows rows => some rows
  | .jsonOne row => some [row]
  | .ndjsonRows rows => some rows
  | _ => none

/-- Rows of an items response, when the output type is a row format. -/
def itemsRespRows : ItemsResp → Option (List Row)
  | .csvRows rows => some rows
  | .jsonRowsArr rows => some rows
  | .ndjsonRows rows => some rows
  | _ => none

/-- Rows of a search response, when the output type is a row format. -/
def searchRespRows : SearchResp → Option (List Row)
  | .csvRows rows => some rows
  | .jsonRowsArr rows => some rows
  | .ndjsonRows rows => some rows
  | _ => none

/-! ### Service settings (settings.py) -/

/-- The `APISettings` defaults (settings.py lines 10-21). -/
structure APISettings where
  name : String := "TiPg STAC: Use PgSTAC as backend"
  debug : Bool := false
  cors_origins : String := "*"
  cachecontrol : String := "public, max-age=3600"
  template_directory : Option String := none

/-- The `cors_origins` field validator: split on commas, strip each
origin. -/
def parse_cors_origin (v : String) : List String :=
  (pySplitComma v).map (fun origin => pyStrip origin)

/-! ### Claim-side (spec-worded) helpers, used to compare code behaviour
with the claims' own wording -/

/-- Spec wording of C1: every non-`offset` pair of the request's query
string is preserved in a link's query. -/
def preservesOtherParams (qs q : QS) : Prop :=
  ∀ p ∈ qs, p.1 ≠ "offset" → p ∈ q

/-- Spec wording of C5, per term: an optional literal leading sign, then
the property name with surrounding whitespace trimmed; a leading `-` maps
to descending, anything else to ascending. -/
def sortSpecTerm (t : String) : SortField :=
  if t.toList.head? = some '-' then
    { field := pyStrip (String.mk (t.toList.drop 1)), direction := "desc" }
  else if t.toList.head? = some '+' then
    { field := pyStrip (String.mk (t.toList.drop 1)), direction := "asc" }
  else { field := pyStrip t, direction := "asc" }

/-- Spec wording of C5: split on commas, every term yields its entry. -/
def sortSpecParse (s : String) : List SortField :=
  (pySplitComma s).map sortSpecTerm

/-- Spec wording of C7: a value a reader would call absent or empty. -/
def emptyVal : JVal → Bool
  | .jnull => true
  | .jstr "" => true
  | .jarr [] => true
  | .jobj [] => true
  | _ => false

/-! ### Association-list lemmas -/

theorem lookupP_nil {α : Type} (k : String) :
    lookupP ([] : List (String × α)) k = none := rfl

theorem lookupP_cons {α : Type} (p : String × α) (d : List (String × α))
    (k : String) :
    lookupP (p :: d) k = if p.1 = k then some p.2 else lookupP d k := by
  by_cases h : p.1 = k
  · simp [lookupP, List.find?, h]
  · simp [lookupP, List.find?, h, beq_eq_false_iff_ne.mpr h]

theorem hasKeyP_cons {α : Type} (p : String × α) (d : List (String × α))
    (k : String) :
    hasKeyP (p :: d) k = (decide (p.1 = k) || hasKeyP d k) := by
  simp only [hasKeyP, List.any_cons]
  cases h : (p.1 == k) with
  | true => simp [beq_iff_eq.mp h]
  | false => simp [beq_eq_false_iff_ne.mp h]

theorem lookupP_none_of_not_hasKeyP {α : Type} (d : List (String × α))
    (k : String) (h : hasKeyP d k = false) : lookupP d k = none := by
  induction d with
  | nil => rfl
  | cons p ps ih =>
    rw [hasKeyP_cons] at h
    simp only [Bool.or_eq_false_iff, decide_eq_false_iff_not] at h
    rw [lookupP_cons, if_neg h.1, ih h.2]

theorem lookupP_append {α : Type} (d e : List (String × α)) (k : String) :
    lookupP (d ++ e) k =
      match lookupP d k with
      | some v => some v
      | none => lookupP e k := by
  induction d with
  | nil => simp [lookupP]
  | cons p ps ih =>
    rw [List.cons_append, lookupP_cons, lookupP_cons]
    by_cases h : p.1 = k
    · simp [h]
    · simp [h, ih]

theorem hasKeyP_iff_mem_keys {α : Type} (d : List (String × α))
    (k : String) : hasKeyP d k = true ↔ k ∈ d.map Prod.fst := by
  simp only [hasKeyP, List.any_eq_true, List.mem_map, beq_iff_eq]

theorem dictInsertP_of_not_hasKeyP {α : Type} (d : List (String × α))
    (k : String) (v : α) (h : hasKeyP d k = false) :
    dictInsertP d k v = d ++ [(k, v)] := by
  simp [dictInsertP, h]

theorem lookupP_map_overwrite {α : Type} (d : List (String × α))
    (k : String) (v : α) (hk : hasKeyP d k = true) :
    lookupP (d.map (fun p => if p.1 == k then (k, v) else p)) k = some v := by
  induction d with
  | nil => simp [hasKeyP] at hk
  | cons p ps ih =>
    by_cases hp : p.1 = k
    · simp [lookupP_cons, hp]
    · rw [hasKeyP_cons] at hk
      simp only [Bool.or_eq_true, decide_eq_true_eq] at hk
      rcases hk with hk | hk
      · exact absurd hk hp
      · have hb : (p.1 == k) = false := beq_eq_false_iff_ne.mpr hp
        simp only [List.map_cons, hb, Bool.false_eq_true, if_false]
        rw [lookupP_cons, if_neg hp]
        simpa using ih hk

theorem lookupP_dictInsertP_self {α : Type} (d : List (String × α))
    (k : String) (v : α) : lookupP (dictInsertP d k v) k = some v := by
  by_cases hk : hasKeyP d k = true
  · rw [dictInsertP, if_pos hk]
    exact lookupP_map_overwrite d k v hk
  · simp only [Bool.not_eq_true] at hk
    rw [dictInsertP_of_not_hasKeyP d k v hk, lookupP_append,
      lookupP_none_of_not_hasKeyP d k hk]
    simp [lookupP_cons]

theorem lookupP_map_overwrite_ne {α : Type} (d : List (String × α))
    (k v : String) (x : α) (hne : v ≠ k) :
    lookupP (d.map (fun p => if p.1 == k then (k, x) else p)) v =
      lookupP d v := by
  induction d with
  | nil => rfl
  | cons p ps ih =>
    by_cases hp : p.1 = k
    · have hb : (p.1 == k) = true := beq_iff_eq.mpr hp
      simp only [List.map_cons, hb, if_true]
      rw [lookupP_cons, lookupP_cons]
      have h1 : ¬((k, x).1 = v) := fun h => hne h.symm
      have h2 : ¬(p.1 = v) := fun h => hne (hp ▸ h).symm
      rw [if_neg h1, if_neg h2]
      exact ih
    · have hb : (p.1 == k) = false := beq_eq_false_iff_ne.mpr hp
      simp only [List.map_cons, hb, Bool.false_eq_true, if_false]
      rw [lookupP_cons, lookupP_cons]
      by_cases hv : p.1 = v
      · rw [if_pos hv, if_pos hv]
      · rw [if_neg hv, if_neg hv]
        exact ih

theorem lookupP_dictInsertP_ne {α : Type} (d : List (String × α))
    (k v : String) (x : α) (hne : v ≠ k) :
    lookupP (dictInsertP d k x) v = lookupP d v := by
  by_cases hk : hasKeyP d k = true
  · rw [dictInsertP, if_pos hk]
    exact lookupP_map_overwrite_ne d k v x hne
  · simp only [Bool.not_eq_true] at hk
    rw [dictInsertP_of_not_hasKeyP d k x hk, lookupP_append]
    have : lookupP [(k, x)] v = none := by
      rw [lookupP_cons, if_neg (fun h : k = v => hne h.symm)]
      rfl
    rw [this]
    cases lookupP d v <;> rfl

theorem lookupP_foldl_dictInsertP {α : Type} (qs : List (String × α))
    (k : String) :
    ∀ d : List (String × α),
      lookupP (qs.foldl (fun d p => dictInsertP d p.1 p.2) d) k =
        match lastVal qs k with
        | some v => some v
        | none => lookupP d k := by
  induction qs with
  | nil => intro d; rfl
  | cons p ps ih =>
    intro d
    rw [List.foldl_cons, ih]
    cases h : lastVal ps k with
    | some v => simp [lastVal, h]
    | none =>
      by_cases hp : p.1 = k
      · have hb : (p.1 == k) = true := beq_iff_eq.mpr hp
        simp only [lastVal, h, hb, if_true]
        subst hp
        rw [lookupP_dictInsertP_self]
      · have hb : (p.1 == k) = false := beq_eq_false_iff_ne.mpr hp
        simp only [lastVal, h, hb, Bool.false_eq_true, if_false]
        exact lookupP_dictInsertP_ne d p.1 k p.2 (fun he => hp he.symm)

theorem lookupP_pyDictP {α : Type} (qs : List (String × α)) (k : String) :
    lookupP (pyDictP qs) k = lastVal qs k := by
  rw [pyDictP, lookupP_foldl_dictInsertP]
  cases lastVal qs k <;> rfl

theorem hasKeyP_eq_isSome_lookupP {α : Type} (d : List (String × α))
    (k : String) : hasKeyP d k = (lookupP d k).isSome := by
  induction d with
  | nil => rfl
  | cons p ps ih =>
    rw [hasKeyP_cons, lookupP_cons]
    by_cases hp : p.1 = k
    · simp [hp]
    · simp [hp, ih]

theorem hasKeyP_dictPopP_self {α : Type} (d : List (String × α))
    (k : String) : hasKeyP (dictPopP d k) k = false := by
  rw [Bool.eq_false_iff]
  intro hc
  rw [hasKeyP, List.any_eq_true] at hc
  obtain ⟨p, hp, he⟩ := hc
  rw [dictPopP, List.mem_filter] at hp
  have h1 : p.1 = k := beq_iff_eq.mp he
  have h2 : (p.1 != k) = true := hp.2
  rw [h1, bne_self_eq_false] at h2
  exact Bool.false_ne_true h2

theorem lookupP_dictPopP_ne {α : Type} (d : List (String × α))
    (k v : String) (hne : v ≠ k) :
    lookupP (dictPopP d k) v = lookupP d v := by
  induction d with
  | nil => rfl
  | cons p ps ih =>
    by_cases hp : p.1 = k
    · have hb : (p.1 != k) = false := by simp [hp]
      simp only [dictPopP, List.filter_cons, hb, Bool.false_eq_true,
        if_false]
      rw [lookupP_cons, if_neg (fun h : p.1 = v => hne (hp ▸ h).symm)]
      exact ih
    · have hb : (p.1 != k) = true := by simp [hp]
      simp only [dictPopP, List.filter_cons, hb, if_true]
      rw [lookupP_cons, lookupP_cons]
      by_cases hv : p.1 = v
      · rw [if_pos hv, if_pos hv]
      · rw [if_neg hv, if_neg hv]
        exact ih

theorem keys_nodup_dictInsertP {α : Type} (d : List (String × α))
    (k : String) (v : α) (h : (d.map Prod.fst).Nodup) :
    ((dictInsertP d k v).map Prod.fst).Nodup := by
  by_cases hk : hasKeyP d k = true
  · rw [dictInsertP, if_pos hk]
    have : (d.map (fun p => if p.1 == k then (k, v) else p)).map Prod.fst =
        d.map Prod.fst := by
      rw [List.map_map]
      apply List.map_congr_left
      intro p _
      by_cases hp : p.1 = k
      · simp [beq_iff_eq.mpr hp, hp]
      · simp [beq_eq_false_iff_ne.mpr hp, hp]
    rw [this]
    exact h
  · simp only [Bool.not_eq_true] at hk
    rw [dictInsertP_of_not_hasKeyP d k v hk, List.map_append]
    rw [List.nodup_append]
    refine ⟨h, List.nodup_singleton k, ?_⟩
    intro a ha hb
    simp only [List.map_cons, List.map_nil, List.mem_singleton] at hb
    subst hb
    exact absurd ((hasKeyP_iff_mem_keys d a).mpr ha) (by simp [hk])

theorem keys_nodup_pyDictP {α : Type} (qs : List (String × α)) :
    ((pyDictP qs).map Prod.fst).Nodup := by
  rw [pyDictP]
  have : ∀ d : List (String × α), (d.map Prod.fst).Nodup →
      ((qs.foldl (fun d p => dictInsertP d p.1 p.2) d).map Prod.fst).Nodup := by
    induction qs with
    | nil => intro d hd; exact hd
    | cons p ps ih =>
      intro d hd
      rw [List.foldl_cons]
      exact ih _ (keys_nodup_dictInsertP d p.1 p.2 hd)
  exact this [] List.nodup_nil

theorem keys_nodup_dictPopP {α : Type} (d : List (String × α))
    (k : String) (h : (d.map Prod.fst).Nodup) :
    ((dictPopP d k).map Prod.fst).Nodup := by
  have hs : List.Sublist ((dictPopP d k).map Prod.fst) (d.map Prod.fst) :=
    List.Sublist.map Prod.fst (List.filter_sublist d)
  exact h.sublist hs

theorem filter_key_eq_singleton {α : Type} (d : List (String × α))
    (k : String) (v : α) (hn : (d.map Prod.fst).Nodup)
    (hl : lookupP d k = some v) :
    d.filter (fun p => p.1 == k) = [(k, v)] := by
  induction d with
  | nil => simp [lookupP] at hl
  | cons p ps ih =>
    rw [lookupP_cons] at hl
    rw [List.map_cons, List.nodup_cons] at hn
    by_cases hp : p.1 = k
    · rw [if_pos hp] at hl
      have hpv : p = (k, v) := by
        cases p with
        | mk a b =>
          simp only at hp
          simp only [Option.some.injEq] at hl
          rw [hp, hl]
      have hnot : k ∉ ps.map Prod.fst := hp ▸ hn.1
      have hfil : ps.filter (fun p => p.1 == k) = [] := by
        rw [List.filter_eq_nil_iff]
        intro a ha hc
        exact hnot (List.mem_map.mpr ⟨a, ha, beq_iff_eq.mp hc⟩)
      rw [List.filter_cons, if_pos (by simp [beq_iff_eq.mpr hp]), hfil, hpv]
    · rw [if_neg hp] at hl
      rw [List.filter_cons, if_neg (by simp [beq_eq_false_iff_ne.mpr hp])]
      exact ih hn.2 hl

/-! ### Pagination-link characterization -/

theorem paginationLinks_keyError (path : String) (qs : QS)
    (next : Option String) (t : String)
    (hk : hasKeyP (pyDictP qs) "offset" = false) :
    paginationLinks path qs next (some t) = .error .keyError := by
  simp [paginationLinks, hk]

theorem paginationLinks_ok_shape (path : String) (qs : QS)
    (next prev : Option String) (L : List Link)
    (h : paginationLinks path qs next prev = .ok L) :
    L = nextLinkList path qs next ++ prevLinkList path qs prev := by
  cases prev with
  | none =>
    simp only [paginationLinks] at h
    cases h
    rw [prevLinkList, List.append_nil]
    rfl
  | some t =>
    simp only [paginationLinks] at h
    by_cases hk : hasKeyP (pyDictP qs) "offset" = true
    · rw [if_pos hk] at h
      cases h
      rfl
    · simp only [Bool.not_eq_true] at hk
      rw [if_neg (by simp [hk])] at h
      cases h

theorem lookupP_nextPageLink_query (path : String) (qs : QS) (t k : String)
    (hk : k ≠ "offset") :
    lookupP (nextPageLink path qs t).query k = lastVal qs k := by
  show lookupP (dictInsertP (pyDictP qs) "offset" t) k = lastVal qs k
  rw [lookupP_dictInsertP_ne _ _ _ _ hk, lookupP_pyDictP]

theorem offset_filter_nextPageLink_query (path : String) (qs : QS)
    (t : String) :
    ((nextPageLink path qs t).query.filter (fun p => p.1 == "offset")) =
      [("offset", t)] := by
  apply filter_key_eq_singleton
  · exact keys_nodup_dictInsertP _ _ _ (keys_nodup_pyDictP qs)
  · exact lookupP_dictInsertP_self _ _ _

theorem prevPageLink_query_eq (path : String) (qs : QS) (t : String) :
    (prevPageLink path qs t).query =
      dictPopP (pyDictP qs) "offset" ++ [("offset", t)] := by
  show dictInsertP (dictPopP (pyDictP qs) "offset") "offset" t = _
  exact dictInsertP_of_not_hasKeyP _ _ _ (hasKeyP_dictPopP_self _ _)

theorem lookupP_prevPageLink_query (path : String) (qs : QS) (t k : String)
    (hk : k ≠ "offset") :
    lookupP (prevPageLink path qs t).query k = lastVal qs k := by
  show lookupP (dictInsertP (dictPopP (pyDictP qs) "offset") "offset" t) k =
    lastVal qs k
  rw [lookupP_dictInsertP_ne _ _ _ _ hk, lookupP_dictPopP_ne _ _ _ hk,
    lookupP_pyDictP]

theorem offset_filter_prevPageLink_query (path : String) (qs : QS)
    (t : String) :
    ((prevPageLink path qs t).query.filter (fun p => p.1 == "offset")) =
      [("offset", t)] := by
  apply filter_key_eq_singleton
  · exact keys_nodup_dictInsertP _ _ _
      (keys_nodup_dictPopP _ _ (keys_nodup_pyDictP qs))
  · exact lookupP_dictInsertP_self _ _ _

theorem getLast_prevPageLink_query (path : String) (qs : QS) (t : String) :
    (prevPageLink path qs t).query.getLast? = some ("offset", t) := by
  rw [prevPageLink_query_eq]
  exact List.getLast?_concat _

theorem paginationLinks_characterization (pth : String) (qs : QS)
    (nx pv : Option String) (pl : List Link)
    (h : paginationLinks pth qs nx pv = .ok pl) :
    (∀ t, nx = some t → t ≠ "" →
      ∃ l, pl.filter (fun x => x.rel == "next") = [l] ∧
        l.query.filter (fun p => p.1 == "offset") = [("offset", t)] ∧
        (∀ k, k ≠ "offset" → lookupP l.query k = lastVal qs k)) ∧
    (nx = none → pl.filter (fun x => x.rel == "next") = []) ∧
    (nx = some "" → pl.filter (fun x => x.rel == "next") = []) ∧
    (∀ t, pv = some t →
      ∃ l, pl.filter (fun x => x.rel == "prev") = [l] ∧
        l.query.filter (fun p => p.1 == "offset") = [("offset", t)] ∧
        l.query.getLast? = some ("offset", t) ∧
        (∀ k, k ≠ "offset" → lookupP l.query k = lastVal qs k)) ∧
    (pv = none → pl.filter (fun x => x.rel == "prev") = []) := by
  have hshape := paginationLinks_ok_shape pth qs nx pv pl h
  subst hshape
  refine ⟨?_, ?_, ?_, ?_, ?_⟩
  · intro t ht hne
    subst ht
    refine ⟨nextPageLink pth qs t, ?_, ?_, ?_⟩
    · cases pv with
      | none =>
        simp [nextLinkList, prevLinkList, hne, nextPageLink]
      | some u =>
        simp [nextLinkList, prevLinkList, hne, nextPageLink, prevPageLink]
    · exact offset_filter_nextPageLink_query pth qs t
    · intro k hk
      exact lookupP_nextPageLink_query pth qs t k hk
  · intro hn
    subst hn
    cases pv with
    | none => simp [nextLinkList, prevLinkList]
    | some u => simp [nextLinkList, prevLinkList, prevPageLink]
  · intro hn
    subst hn
    cases pv with
    | none => simp [nextLinkList, prevLinkList]
    | some u => simp [nextLinkList, prevLinkList, prevPageLink]
  · intro t ht
    subst ht
    refine ⟨prevPageLink pth qs t, ?_, ?_, ?_, ?_⟩
    · cases nx with
      | none => simp [nextLinkList, prevLinkList, prevPageLink]
      | some u =>
        by_cases hu : u = ""
        · simp [nextLinkList, prevLinkList, hu, prevPageLink]
        · simp [nextLinkList, prevLinkList, hu, prevPageLink, nextPageLink]
    · exact offset_filter_prevPageLink_query pth qs t
    · exact getLast_prevPageLink_query pth qs t
    · intro k hk
      exact lookupP_prevPageLink_query pth qs t k hk
  · intro hn
    subst hn
    cases nx with
    | none => simp [nextLinkList, prevLinkList]
    | some u =>
      by_cases hu : u = ""
      · simp [nextLinkList, prevLinkList, hu]
      · simp [nextLinkList, prevLinkList, hu, nextPageLink]

/-! ### Claim C1 -/

/-- Claim C1 (amended): for item-list and GET-search responses of the
link-carrying output types, a present non-empty `next` token yields exactly
one next link whose query holds the token verbatim in a single `offset`
parameter and, for every other key, the request's query parameters
collapsed Python-dict-style to their last value (`lastVal`); a present
`prev` token (the handler having survived the `offset` pop) yields exactly
one prev link with `offset` re-added last; a missing token — or an empty
`next` token — yields no such link.  (The claim's "all other parameters
preserved" only holds up to this dict collapse; see the
counterexample.) -/
theorem claim_C1_pagination (c : PgSTACCollection) (qs : QS) (env : ItemList)
    (L : List Link)
    (hL : itemsLinks c qs env = .ok L ∨ searchLinks qs env = .ok L) :
    (∀ t, env.next = some t → t ≠ "" →
      ∃ l, L.filter (fun x => x.rel == "next") = [l] ∧
        l.query.filter (fun p => p.1 == "offset") = [("offset", t)] ∧
        (∀ k, k ≠ "offset" → lookupP l.query k = lastVal qs k)) ∧
    (env.next = none → L.filter (fun x => x.rel == "next") = []) ∧
    (env.next = some "" → L.filter (fun x => x.rel == "next") = []) ∧
    (∀ t, env.prev = some t →
      ∃ l, L.filter (fun x => x.rel == "prev") = [l] ∧
        l.query.filter (fun p => p.1 == "offset") = [("offset", t)] ∧
        l.query.getLast? = some ("offset", t) ∧
        (∀ k, k ≠ "offset" → lookupP l.query k = lastVal qs k)) ∧
    (env.prev = none → L.filter (fun x => x.rel == "prev") = []) := by
  have hred : ∃ pth pl,
      paginationLinks pth qs env.next env.prev = .ok pl ∧
      L.filter (fun x => x.rel == "next") =
        pl.filter (fun x => x.rel == "next") ∧
      L.filter (fun x => x.rel == "prev") =
        pl.filter (fun x => x.rel == "prev") := by
    rcases hL with hok | hok
    · rw [itemsLinks] at hok
      cases hp : paginationLinks ("/collections/" ++ c.id ++ "/items") qs
          env.next env.prev with
      | error e => rw [hp] at hok; cases hok
      | ok pl =>
        rw [hp] at hok
        have hLe : L = [itemsCollectionLink c.id, itemsSelfLink c.id qs] ++
            pl := by
          cases hok; rfl
        subst hLe
        refine ⟨_, pl, hp, ?_, ?_⟩ <;>
          simp [List.filter_append, itemsCollectionLink, itemsSelfLink]
    · rw [searchLinks] at hok
      exact ⟨"/search", L, hok, rfl, rfl⟩
  obtain ⟨pth, pl, hp, hfn, hfp⟩ := hred
  have hchar := paginationLinks_characterization pth qs env.next env.prev
    pl hp
  rw [hfn, hfp]
  exact hchar

/-- Witness for C1: a concrete search request with an existing `offset`
parameter and both tokens present produces exactly one next link. -/
theorem claim_C1_pagination_witness :
    searchLinks [("a", "1"), ("offset", "x")]
      { items := [], matched := 0, next := some "N", prev := some "P" } =
      .ok [nextPageLink "/search" [("a", "1"), ("offset", "x")] "N",
           prevPageLink "/search" [("a", "1"), ("offset", "x")] "P"] ∧
    ([nextPageLink "/search" [("a", "1"), ("offset", "x")] "N",
      prevPageLink "/search" [("a", "1"), ("offset", "x")] "P"].filter
        (fun x => x.rel == "next")).length = 1 := by
  have hok : searchLinks [("a", "1"), ("offset", "x")]
      { items := [], matched := 0, next := some "N", prev := some "P" } =
      .ok [nextPageLink "/search" [("a", "1"), ("offset", "x")] "N",
           prevPageLink "/search" [("a", "1"), ("offset", "x")] "P"] := by
    rfl
  refine ⟨hok, ?_⟩
  obtain ⟨l, hf, -, -⟩ :=
    (claim_C1_pagination ⟨"c", none, none, none⟩ [("a", "1"), ("offset", "x")]
      { items := [], matched := 0, next := some "N", prev := some "P" }
      _ (Or.inr hok)).1 "N" rfl (by decide)
  rw [hf]
  rfl

/-- Counterexample to C1 as stated: with the duplicated query parameter
`foo=1&foo=2`, the next link drops `foo=1` (Python's `{**query_params}`
collapses repeated keys to their last value), so not every non-`offset`
parameter of the request is preserved. -/
theorem claim_C1_counterexample :
    searchLinks [("foo", "1"), ("foo", "2")]
      { items := [], matched := 0, next := some "T", prev := none } =
      .ok [nextPageLink "/search" [("foo", "1"), ("foo", "2")] "T"] ∧
    (nextPageLink "/search" [("foo", "1"), ("foo", "2")] "T").query =
      [("foo", "2"), ("offset", "T")] ∧
    ¬ preservesOtherParams [("foo", "1"), ("foo", "2")]
      (nextPageLink "/search" [("foo", "1"), ("foo", "2")] "T").query := by
  refine ⟨rfl, rfl, ?_⟩
  rw [preservesOtherParams]
  decide

/-! ### Claim C4 -/

theorem itemsLinks_keyError (c : PgSTACCollection) (qs : QS)
    (env : ItemList) (t : String)
    (hk : hasKeyP (pyDictP qs) "offset" = false) (hp : env.prev = some t) :
    itemsLinks c qs env = .error .keyError := by
  rw [itemsLinks, hp, paginationLinks_keyError _ _ _ t hk]

theorem searchLinks_keyError (qs : QS) (env : ItemList) (t : String)
    (hk : hasKeyP (pyDictP qs) "offset" = false) (hp : env.prev = some t) :
    searchLinks qs env = .error .keyError := by
  rw [searchLinks, hp, paginationLinks_keyError _ _ _ t hk]

/-- Claim C4 (amended): in the three handlers, building the prev link pops
`offset` from the query dict unconditionally, so every request that reaches
the link-building path (i.e. whose negotiated output type is not one of the
row formats CSV/JSON/NDJSON, which return before links are built) with no
`offset` query parameter and a prev token in the envelope raises
`KeyError`.  As literally stated — for every request — the claim fails on
the row formats; see the counterexample. -/
theorem claim_C4_prev_pop_keyerror
    (c : PgSTACCollection) (qs : QS) (output_type : Option MediaType)
    (env : ItemList) (t : String)
    (hk : hasKeyP (pyDictP qs) "offset" = false)
    (hp : env.prev = some t)
    (hot : ¬(output_type.getD .geojson = .csv ∨
             output_type.getD .geojson = .json ∨
             output_type.getD .geojson = .ndjson)) :
    itemsHandler c qs output_type env = .error .keyError ∧
    searchRender qs (output_type.getD .geojson) env = .error .keyError ∧
    (∀ (α : Type) (to_cql2 : α → String) (jsonLoads : String → Option JVal)
      (unquote : String → String) (parse : String → Option Int)
      (defaultLimit : Nat) (backend : List (String × PyVal) → ItemList)
      (cf idf : Option (List String)) (bf : Option (List Rat))
      (dtf : Option (List String)) (props : Option (List String))
      (cqlf : Option α) (sb q : Option String) (lim : Nat)
      (off : Option String) (clean : List (String × PyVal)),
      getSearchPrepare α to_cql2 jsonLoads unquote parse defaultLimit
        cf idf bf dtf props cqlf sb q lim off = .ok clean →
      backend clean = env →
      getSearchHandler α to_cql2 jsonLoads unquote parse defaultLimit
        backend qs cf idf bf dtf props cqlf sb q lim off output_type =
        .error .keyError) ∧
    (∀ (β : Type) (backend : β → ItemList) (body : β),
      backend body = env →
      postSearchHandler β backend body qs output_type = .error .keyError) := by
  have hil := itemsLinks_keyError c qs env t hk hp
  have hsl := searchLinks_keyError qs env t hk hp
  have hrender : searchRender qs (output_type.getD .geojson) env =
      .error .keyError := by
    cases hmt : output_type.getD .geojson with
    | csv => exact absurd (Or.inl rfl) (hmt ▸ hot)
    | json => exact absurd (Or.inr (Or.inl rfl)) (hmt ▸ hot)
    | ndjson => exact absurd (Or.inr (Or.inr rfl)) (hmt ▸ hot)
    | geojson => simp [searchRender, hsl]
    | html => simp [searchRender, hsl]
    | geojsonseq => simp [searchRender, hsl]
  refine ⟨?_, hrender, ?_, ?_⟩
  · cases hmt : output_type.getD .geojson with
    | csv => exact absurd (Or.inl rfl) (hmt ▸ hot)
    | json => exact absurd (Or.inr (Or.inl rfl)) (hmt ▸ hot)
    | ndjson => exact absurd (Or.inr (Or.inr rfl)) (hmt ▸ hot)
    | geojson => simp [itemsHandler, hmt, hil]
    | html => simp [itemsHandler, hmt, hil]
    | geojsonseq => simp [itemsHandler, hmt, hil]
  · intro α to_cql2 jsonLoads unquote parse defaultLimit backend cf idf bf
      dtf props cqlf sb q lim off clean hprep hbe
    rw [getSearchHandler, hprep]
    show searchRender qs (output_type.getD MediaType.geojson)
      (backend clean) = Except.error PyError.keyError
    rw [hbe]
    exact hrender
  · intro β backend body hbe
    rw [postSearchHandler, hbe]
    exact hrender

/-- Witness for C4: a GeoJSON request with no `offset` parameter whose
envelope carries a prev token errors with `KeyError` in all three
handlers. -/
theorem claim_C4_prev_pop_keyerror_witness :
    hasKeyP (pyDictP [("a", "1")]) "offset" = false ∧
    itemsHandler ⟨"c", none, none, none⟩ [("a", "1")] none
      { items := [], matched := 0, next := none, prev := some "P" } =
      .error .keyError ∧
    postSearchHandler Unit
      (fun _ => { items := [], matched := 0, next := none, prev := some "P" })
      () [("a", "1")] none = .error .keyError := by
  have h := claim_C4_prev_pop_keyerror ⟨"c", none, none, none⟩ [("a", "1")]
    none { items := [], matched := 0, next := none, prev := some "P" } "P"
    (by decide) rfl (by decide)
  exact ⟨by decide, h.1, h.2.2.2 Unit
    (fun _ => { items := [], matched := 0, next := none, prev := some "P" })
    () rfl⟩

/-- Counterexample to C4 as stated: a CSV request with no `offset`
parameter and a prev token returns rows normally — the handler returns
before the prev link is built, so no `KeyError` is raised. -/
theorem claim_C4_counterexample :
    itemsHandler ⟨"c", none, none, none⟩ [("a", "1")] (some .csv)
      { items := [], matched := 0, next := none, prev := some "P" } =
      .ok (ItemsResp.csvRows []) ∧
    itemsHandler ⟨"c", none, none, none⟩ [("a", "1")] (some .csv)
      { items := [], matched := 0, next := none, prev := some "P" } ≠
      .error .keyError := by
  have hEq : itemsHandler ⟨"c", none, none, none⟩ [("a", "1")] (some .csv)
      { items := [], matched := 0, next := none, prev := some "P" } =
      .ok (ItemsResp.csvRows []) := rfl
  exact ⟨hEq, fun hc => Except.noConfusion (hEq.symm.trans hc)⟩

/-! ### Claim C2 -/

theorem parsePart_open (parse : String → Option Int) (s : String)
    (h : s = ".." ∨ s = "") : parsePart parse s = .ok none := by
  rcases h with h | h <;> simp [parsePart, h]

theorem intercalate_pair (a b : String) :
    String.intercalate "/" [a, b] = a ++ "/" ++ b := rfl

theorem getSearchDatetime_two_ok_shape (parse : String → Option Int)
    (a b j : String)
    (h : getSearchDatetime parse (some [a, b]) = .ok (some j)) :
    j = a ++ "/" ++ b := by
  cases hpa : parsePart parse a with
  | error e =>
    simp [getSearchDatetime, hpa] at h
    exact Except.noConfusion h
  | ok oa =>
    cases hpb : parsePart parse b with
    | error e =>
      simp [getSearchDatetime, hpa, hpb] at h
      exact Except.noConfusion h
    | ok ob =>
      match oa, ob with
      | none, none =>
        simp [getSearchDatetime, hpa, hpb] at h
        exact Except.noConfusion h
      | some sv, none =>
        simp [getSearchDatetime, hpa, hpb] at h
        exact (Option.some.inj (Except.ok.inj h)).symm
      | none, some ev =>
        simp [getSearchDatetime, hpa, hpb] at h
        exact (Option.some.inj (Except.ok.inj h)).symm
      | some sv, some ev =>
        simp [getSearchDatetime, hpa, hpb] at h
        have h2 : (if ev < sv then
            (Except.error (PyError.invalidDatetime
              "Start datetime cannot be before end datetime.") :
              Except PyError (Option String))
          else .ok (some (String.intercalate "/" [a, b]))) =
            .ok (some j) := h
        by_cases hgt : ev < sv
        · rw [if_pos hgt] at h2
          exact Except.noConfusion h2
        · rw [if_neg hgt] at h2
          exact (Option.some.inj (Except.ok.inj h2)).symm

theorem join_pair_ne_empty (a b : String) : a ++ "/" ++ b ≠ "" := by
  intro h
  have h2 := congrArg String.length h
  rw [String.length_append, String.length_append] at h2
  have h1 : "/".length = 1 := rfl
  have h0 : ("" : String).length = 0 := rfl
  rw [h1, h0] at h2
  omega

/-- Claim C2 (amended): for a two-part datetime interval on GET `/search`,
both ends open raises `InvalidDatetime`; both ends parsed with start after
end raises `InvalidDatetime`; otherwise — provided each non-open part
parses (a failing part propagates the parser's `ValueError` instead, see
counterexample) — the parts are rejoined with `"/"` and the joined string
is placed in the request sent to the backend. -/
theorem claim_C2_get_search_datetime (parse : String → Option Int)
    (a b : String) :
    ((a = ".." ∨ a = "") → (b = ".." ∨ b = "") →
      getSearchDatetime parse (some [a, b]) =
        .error (.invalidDatetime
          "Double open-ended datetime intervals are not allowed.")) ∧
    (∀ sv ev : Int, parsePart parse a = .ok (some sv) →
      parsePart parse b = .ok (some ev) → sv > ev →
      getSearchDatetime parse (some [a, b]) =
        .error (.invalidDatetime
          "Start datetime cannot be before end datetime.")) ∧
    (∀ oa ob : Option Int, parsePart parse a = .ok oa →
      parsePart parse b = .ok ob → ¬(oa = none ∧ ob = none) →
      (∀ sv ev : Int, oa = some sv → ob = some ev → ¬ sv > ev) →
      getSearchDatetime parse (some [a, b]) =
        .ok (some (a ++ "/" ++ b))) ∧
    (∀ (α : Type) (to_cql2 : α → String) (jsonLoads : String → Option JVal)
      (unquote : String → String) (defaultLimit : Nat)
      (cf idf : Option (List String)) (bf : Option (List Rat))
      (props : Option (List String)) (cqlf : Option α)
      (sb q : Option String) (lim : Nat) (off : Option String) (j : String)
      (clean : List (String × PyVal)),
      getSearchDatetime parse (some [a, b]) = .ok (some j) →
      getSearchPrepare α to_cql2 jsonLoads unquote parse defaultLimit
        cf idf bf (some [a, b]) props cqlf sb q lim off = .ok clean →
      ("datetime", PyVal.vStr j) ∈ clean) := by
  refine ⟨?_, ?_, ?_, ?_⟩
  · intro ha hb
    have hpa := parsePart_open parse a ha
    have hpb := parsePart_open parse b hb
    simp [getSearchDatetime, hpa, hpb]
    rfl
  · intro sv ev hpa hpb hgt
    simp [getSearchDatetime, hpa, hpb]
    show (if ev < sv then
        (Except.error (PyError.invalidDatetime
          "Start datetime cannot be before end datetime.") :
          Except PyError (Option String))
      else .ok (some (String.intercalate "/" [a, b]))) = _
    rw [if_pos hgt]
  · intro oa ob hpa hpb hno hord
    match oa, ob with
    | none, none => exact absurd ⟨rfl, rfl⟩ hno
    | some sv, none =>
      simp [getSearchDatetime, hpa, hpb, intercalate_pair]
      rfl
    | none, some ev =>
      simp [getSearchDatetime, hpa, hpb, intercalate_pair]
      rfl
    | some sv, some ev =>
      have hn : ¬ ev < sv := hord sv ev rfl rfl
      simp [getSearchDatetime, hpa, hpb, intercalate_pair]
      show (if ev < sv then
          (Except.error (PyError.invalidDatetime
            "Start datetime cannot be before end datetime.") :
            Except PyError (Option String))
        else .ok (some (String.intercalate "/" [a, b]))) = _
      rw [if_neg hn, intercalate_pair]
  · intro α to_cql2 jsonLoads unquote defaultLimit cf idf bf props cqlf sb
      q lim off j clean hdt hprep
    have hj : j = a ++ "/" ++ b := getSearchDatetime_two_ok_shape _ _ _ _ hdt
    have hjne : j ≠ "" := hj ▸ join_pair_ne_empty a b
    rw [getSearchPrepare, hdt] at hprep
    cases hqv : queryValOf jsonLoads unquote q with
    | error e => rw [hqv] at hprep; exact Except.noConfusion hprep
    | ok qv =>
      rw [hqv] at hprep
      cases hcq : cqlArgsOf α to_cql2 jsonLoads cqlf with
      | error e => rw [hcq] at hprep; exact Except.noConfusion hprep
      | ok cqlArgs =>
        rw [hcq] at hprep
        have hclean : clean =
            (baseArgsOf cf idf bf lim defaultLimit off qv ++ cqlArgs ++
              dtArgsOf (some j) ++ sortArgsOf sb ++
              fieldsArgsOf props).filter keepArg := by
          have : Except.ok ((baseArgsOf cf idf bf lim defaultLimit off qv ++
              cqlArgs ++ dtArgsOf (some j) ++ sortArgsOf sb ++
              fieldsArgsOf props).filter keepArg) =
              (Except.ok clean : Except PyError (List (String × PyVal))) :=
            hprep
          exact (Except.ok.injEq _ _ ▸ this).symm
        rw [hclean]
        apply List.mem_filter.mpr
        refine ⟨?_, rfl⟩
        simp only [List.mem_append]
        refine Or.inl (Or.inl (Or.inr ?_))
        simp [dtArgsOf, hjne]

/-- Witness for C2 at the spec's three concrete intervals. -/
theorem claim_C2_get_search_datetime_witness :
    getSearchDatetime parse_rfc3339 (some ["..", ".."]) =
      .error (.invalidDatetime
        "Double open-ended datetime intervals are not allowed.") ∧
    getSearchDatetime parse_rfc3339
      (some ["2024-01-01T00:00:00Z", "2023-01-01T00:00:00Z"]) =
      .error (.invalidDatetime
        "Start datetime cannot be before end datetime.") ∧
    getSearchDatetime parse_rfc3339 (some ["..", "2024-01-01T00:00:00Z"]) =
      .ok (some "../2024-01-01T00:00:00Z") := by
  refine ⟨(claim_C2_get_search_datetime parse_rfc3339 ".." "..").1
    (Or.inl rfl) (Or.inl rfl), ?_, ?_⟩
  · exact (claim_C2_get_search_datetime parse_rfc3339
      "2024-01-01T00:00:00Z" "2023-01-01T00:00:00Z").2.1
      20240101000000 20230101000000 (by rfl) (by rfl) (by decide)
  · have h := (claim_C2_get_search_datetime parse_rfc3339 ".."
      "2024-01-01T00:00:00Z").2.2.1 none (some 20240101000000) rfl (by rfl)
      (by simp) (fun sv ev hsv hev => Option.noConfusion hsv)
    exact h.trans (by rfl)

/-- Counterexample to C2 as stated: the interval
`["not-a-date", ".."]` is neither double-open nor inverted, yet the
handler does not rejoin it — the RFC 3339 parser fails and its
`ValueError` propagates. -/
theorem claim_C2_counterexample :
    getSearchDatetime parse_rfc3339 (some ["not-a-date", ".."]) =
      .error .valueError ∧
    ¬("not-a-date" = ".." ∨ "not-a-date" = "") ∧
    parse_rfc3339 "not-a-date" = none ∧
    (Except.error PyError.valueError : Except PyError (Option String)) ≠
      .ok (some ("not-a-date" ++ "/" ++ "..")) := by
  refine ⟨rfl, by decide, rfl, fun hc => Except.noConfusion hc⟩

/-! ### Claim C3 -/

/-- Claim C3: the single-item handler fails with the missing-primary-key
error (`NoPrimaryKey` in the code) when the collection has no identifying
column, regardless of the other parameters; otherwise it consults the
per-collection feature search at exactly the id filter `[itemId]` (any two
backends agreeing there produce the same response); an empty result yields
`NotFound` naming both the item and the collection; a non-empty result
succeeds. -/
theorem claim_C3_item_handler (c : PgSTACCollection) (itemId : String)
    (backend : List String → ItemList) (output_type : Option MediaType) :
    (c.id_column = none →
      itemHandler c itemId backend output_type =
        .error (.noPrimaryKey "No primary key is set on this table")) ∧
    (∀ pk, c.id_column = some pk →
      (∀ backend2 : List String → ItemList,
        backend2 [itemId] = backend [itemId] →
        itemHandler c itemId backend2 output_type =
          itemHandler c itemId backend output_type) ∧
      ((backend [itemId]).items = [] →
        itemHandler c itemId backend output_type =
          .error (.notFound ("Item " ++ itemId ++ " in Collection " ++
            c.id ++ " does not exist."))) ∧
      (∀ f fs, (backend [itemId]).items = f :: fs →
        ∃ r, itemHandler c itemId backend output_type = .ok r)) := by
  constructor
  · intro hc
    simp [itemHandler, hc]
  · intro pk hpk
    refine ⟨?_, ?_, ?_⟩
    · intro backend2 hagree
      simp only [itemHandler, hagree]
    · intro hempty
      simp [itemHandler, hpk, hempty]
    · intro f fs hitems
      cases hmt : output_type.getD .geojson <;>
        simp [itemHandler, hpk, hitems, hmt]

/-- Witness for C3: no-primary-key and not-found at concrete inputs. -/
theorem claim_C3_item_handler_witness :
    itemHandler ⟨"c", none, none, none⟩ "i"
      (fun _ => { items := [], matched := 0, next := none, prev := none })
      none =
      .error (.noPrimaryKey "No primary key is set on this table") ∧
    itemHandler ⟨"c", none, none, some "id"⟩ "i"
      (fun _ => { items := [], matched := 0, next := none, prev := none })
      none =
      .error (.notFound "Item i in Collection c does not exist.") := by
  constructor
  · exact (claim_C3_item_handler ⟨"c", none, none, none⟩ "i"
      (fun _ => { items := [], matched := 0, next := none, prev := none })
      none).1 rfl
  · have h := ((claim_C3_item_handler ⟨"c", none, none, some "id"⟩ "i"
      (fun _ => { items := [], matched := 0, next := none, prev := none })
      none).2 "id" rfl).2.1 rfl
    exact h.trans (by rfl)

/-! ### Row-flattening lemmas (claims C7, C8) -/

theorem lastVal_concat {α : Type} (l : List (String × α)) (k : String)
    (v : α) : lastVal (l ++ [(k, v)]) k = some v := by
  induction l with
  | nil => simp [lastVal]
  | cons p ps ih => simp [lastVal, ih]

theorem lookupP_filter_keep {α : Type} (d : List (String × α))
    (pred : String × α → Bool) (k : String) (v : α)
    (hl : lookupP d k = some v) (hp : pred (k, v) = true) :
    lookupP (d.filter pred) k = some v := by
  induction d with
  | nil => simp [lookupP] at hl
  | cons p ps ih =>
    rw [lookupP_cons] at hl
    by_cases hk : p.1 = k
    · rw [if_pos hk] at hl
      have hpv : p = (k, v) := by
        cases p with
        | mk x y =>
          simp only at hk
          simp only [Option.some.injEq] at hl
          rw [hk, hl]
      subst hpv
      rw [List.filter_cons, if_pos (by simpa using hp), lookupP_cons,
        if_pos rfl]
    · rw [if_neg hk] at hl
      rw [List.filter_cons]
      by_cases hpp : pred p = true
      · rw [if_pos (by simpa using hpp), lookupP_cons, if_neg hk]
        exact ih hl
      · rw [if_neg (by simpa using hpp)]
        exact ih hl

theorem lookupP_filter_drop {α : Type} (d : List (String × α))
    (pred : String × α → Bool) (k : String) (v : α)
    (hn : (d.map Prod.fst).Nodup)
    (hl : lookupP d k = some v) (hp : pred (k, v) = false) :
    lookupP (d.filter pred) k = none := by
  induction d with
  | nil => simp [lookupP] at hl
  | cons p ps ih =>
    rw [lookupP_cons] at hl
    rw [List.map_cons, List.nodup_cons] at hn
    by_cases hk : p.1 = k
    · rw [if_pos hk] at hl
      have hpv : p = (k, v) := by
        cases p with
        | mk x y =>
          simp only at hk
          simp only [Option.some.injEq] at hl
          rw [hk, hl]
      subst hpv
      rw [List.filter_cons, if_neg (by simp [hp])]
      apply lookupP_none_of_not_hasKeyP
      rw [Bool.eq_false_iff]
      intro hc
      obtain ⟨q, hq, he⟩ := List.any_eq_true.mp hc
      have hq2 := List.mem_filter.mp hq
      exact hn.1 (List.mem_map.mpr ⟨q, hq2.1, beq_iff_eq.mp he⟩)
    · rw [if_neg hk] at hl
      rw [List.filter_cons]
      by_cases hpp : pred p = true
      · rw [if_pos (by simpa using hpp), lookupP_cons, if_neg hk]
        exact ih hn.2 hl
      · rw [if_neg (by simpa using hpp)]
        exact ih hn.2 hl

theorem lookupP_flattenFeature_geometry (cid : String) (f : Feature)
    (h : jvalIsNull f.geometry = false) :
    lookupP (flattenFeature cid f) "geometry" = some f.geometry := by
  apply lookupP_filter_keep
  · rw [lookupP_pyDictP]
    have : [("collectionId", JVal.jstr cid), ("itemId", JVal.jstr f.id)] ++
        f.properties ++ [("geometry", f.geometry)] =
        ([("collectionId", JVal.jstr cid), ("itemId", JVal.jstr f.id)] ++
          f.properties) ++ [("geometry", f.geometry)] := by
      rw [List.append_assoc]
    rw [this, lastVal_concat]
  · simp [h]

theorem lookupP_flattenFeature_geometry_null (cid : String) (f : Feature)
    (h : jvalIsNull f.geometry = true) :
    lookupP (flattenFeature cid f) "geometry" = none := by
  apply lookupP_filter_drop
  · exact keys_nodup_pyDictP _
  · rw [lookupP_pyDictP]
    have : [("collectionId", JVal.jstr cid), ("itemId", JVal.jstr f.id)] ++
        f.properties ++ [("geometry", f.geometry)] =
        ([("collectionId", JVal.jstr cid), ("itemId", JVal.jstr f.id)] ++
          f.properties) ++ [("geometry", f.geometry)] := by
      rw [List.append_assoc]
    rw [this, lastVal_concat]
  · simp [h]

/-! ### Claim C7 -/

/-- Claim C7 (amended): with CSV, flat-JSON or NDJSON output the items
handler and the search renderer flatten every envelope feature to
`{collectionId, itemId, **properties, geometry}`; every entry whose value
is `None`/null is dropped from the row — empty but non-null values (such
as `""` or `[]`) are kept, see the counterexample — and a feature with
absent geometry yields a row with no geometry key at all. -/
theorem claim_C7_flattened_rows (c : PgSTACCollection) (qs : QS)
    (ot : Option MediaType) (env : ItemList)
    (hot : ot = some .csv ∨ ot = some .json ∨ ot = some .ndjson) :
    (∃ r, itemsHandler c qs ot env = .ok r ∧
      itemsRespRows r =
        some (env.items.map (fun f => flattenFeature c.id f))) ∧
    (∃ r, searchRender qs (ot.getD .geojson) env = .ok r ∧
      searchRespRows r =
        some (env.items.map (fun f => flattenFeature f.collection f))) ∧
    (∀ (cid : String) (f : Feature),
      ∀ p ∈ flattenFeature cid f, jvalIsNull p.2 = false) ∧
    (∀ (cid : String) (f : Feature), jvalIsNull f.geometry = true →
      lookupP (flattenFeature cid f) "geometry" = none) := by
  refine ⟨?_, ?_, ?_, ?_⟩
  · rcases hot with h | h | h <;> subst h
    · exact ⟨ItemsResp.csvRows _, by simp [itemsHandler], rfl⟩
    · exact ⟨ItemsResp.jsonRowsArr _, by simp [itemsHandler], rfl⟩
    · exact ⟨ItemsResp.ndjsonRows _, by simp [itemsHandler], rfl⟩
  · rcases hot with h | h | h <;> subst h
    · exact ⟨SearchResp.csvRows _, by simp [searchRender], rfl⟩
    · exact ⟨SearchResp.jsonRowsArr _, by simp [searchRender], rfl⟩
    · exact ⟨SearchResp.ndjsonRows _, by simp [searchRender], rfl⟩
  · intro cid f p hp
    have := List.of_mem_filter hp
    simpa using this
  · intro cid f h
    exact lookupP_flattenFeature_geometry_null cid f h

/-- Witness for C7: a null-geometry feature flattens to a row with no
geometry key. -/
theorem claim_C7_flattened_rows_witness :
    (some MediaType.csv = some MediaType.csv ∨
     some MediaType.csv = some MediaType.json ∨
     some MediaType.csv = some MediaType.ndjson) ∧
    lookupP (flattenFeature "c" ⟨"i", "c", [], .jnull⟩) "geometry" = none :=
  ⟨Or.inl rfl,
   (claim_C7_flattened_rows ⟨"c", none, none, none⟩ [] (some .csv)
     { items := [], matched := 0, next := none, prev := none }
     (Or.inl rfl)).2.2.2 "c" ⟨"i", "c", [], .jnull⟩ rfl⟩

/-- Counterexample to C7 as stated: an empty-string property value is kept
in the flattened row (only `None` values are dropped), so not every
"absent or empty" value disappears. -/
theorem claim_C7_counterexample :
    flattenFeature "c" ⟨"i", "c", [("a", .jstr "")], .jnull⟩ =
      [("collectionId", .jstr "c"), ("itemId", .jstr "i"),
       ("a", .jstr "")] ∧
    lookupP (flattenFeature "c" ⟨"i", "c", [("a", .jstr "")], .jnull⟩)
      "a" = some (.jstr "") ∧
    emptyVal (.jstr "") = true ∧
    lookupP (flattenFeature "c" ⟨"i", "c", [("a", .jstr "")], .jnull⟩)
      "geometry" = none :=
  ⟨rfl, rfl, rfl, rfl⟩

/-! ### Claim C8 -/

/-- Claim C8: a successful single-item request with CSV/JSON/NDJSON output
emits exactly one row; when the feature's geometry is present, the row's
geometry value is the geometry wrapped in a one-element sequence — unlike
the list flattening, which stores the geometry unwrapped. -/
theorem claim_C8_single_item_row (c : PgSTACCollection) (itemId : String)
    (backend : List String → ItemList) (ot : Option MediaType) (pk : String)
    (hpk : c.id_column = some pk) (f : Feature) (fs : List Feature)
    (hitems : (backend [itemId]).items = f :: fs)
    (hot : ot = some .csv ∨ ot = some .json ∨ ot = some .ndjson) :
    (∃ r, itemHandler c itemId backend ot = .ok r ∧
      itemRespRows r = some [singleItemRow c.id f]) ∧
    (jvalIsNull f.geometry = false →
      lookupP (singleItemRow c.id f) "geometry" =
        some (.jarr [f.geometry])) ∧
    (∀ (cid : String) (g : Feature), jvalIsNull g.geometry = false →
      lookupP (flattenFeature cid g) "geometry" = some g.geometry) := by
  refine ⟨?_, ?_, ?_⟩
  · rcases hot with h | h | h <;> subst h
    · exact ⟨ItemResp.csvRows _, by simp [itemHandler, hpk, hitems], rfl⟩
    · exact ⟨ItemResp.jsonOne _, by simp [itemHandler, hpk, hitems], rfl⟩
    · exact ⟨ItemResp.ndjsonRows _, by simp [itemHandler, hpk, hitems], rfl⟩
  · intro h
    rw [singleItemRow, if_neg (by simp [h])]
    exact lookupP_dictInsertP_self _ _ _
  · intro cid g h
    exact lookupP_flattenFeature_geometry cid g h

/-- Witness for C8: one row, with the geometry wrapped. -/
theorem claim_C8_single_item_row_witness :
    itemHandler ⟨"c", none, none, some "id"⟩ "i"
      (fun _ => { items := [⟨"i", "c", [], .jstr "g"⟩], matched := 1,
                  next := none, prev := none }) (some .json) =
      .ok (ItemResp.jsonOne [("collectionId", .jstr "c"),
        ("itemId", .jstr "i"), ("geometry", .jarr [.jstr "g"])]) ∧
    lookupP (singleItemRow "c" ⟨"i", "c", [], .jstr "g"⟩) "geometry" =
      some (.jarr [.jstr "g"]) ∧
    lookupP (flattenFeature "c" ⟨"i", "c", [], .jstr "g"⟩) "geometry" =
      some (.jstr "g") := by
  have h := claim_C8_single_item_row ⟨"c", none, none, some "id"⟩ "i"
    (fun _ => { items := [⟨"i", "c", [], .jstr "g"⟩], matched := 1,
                next := none, prev := none }) (some .json) "id" rfl
    ⟨"i", "c", [], .jstr "g"⟩ [] rfl (Or.inr (Or.inl rfl))
  refine ⟨by rfl, h.2.1 rfl, h.2.2 "c" ⟨"i", "c", [], .jstr "g"⟩ rfl⟩

/-! ### Claim C5 -/

theorem mem_of_getLastOpt {α : Type} (l : List α) (a : α)
    (h : l.getLast? = some a) : a ∈ l := by
  obtain ⟨hne, heq⟩ := List.mem_getLast?_eq_getLast
    (by rw [h]; exact Option.mem_some_self a)
  rw [heq]
  exact List.getLast_mem hne

theorem stringMk_toList (t : String) : String.mk t.toList = t := rfl

theorem parseSortby_foldl (l : List String) :
    ∀ acc : List SortField,
      l.foldl (fun acc s =>
        match reMatchSortTerm s with
        | some (direction, prop) =>
          acc ++ [{ field := pyStrip prop,
                    direction := if direction = "-" then "desc" else "asc" }]
        | none => acc) acc = acc ++ l.filterMap sortTermParse := by
  induction l with
  | nil => intro acc; simp
  | cons x xs ih =>
    intro acc
    rw [List.foldl_cons, List.filterMap_cons]
    cases hg : reMatchSortTerm x with
    | some dp =>
      cases dp with
      | mk d p =>
        simp only [hg, sortTermParse]
        rw [ih, List.append_assoc]
        rfl
    | none =>
      simp only [hg, sortTermParse]
      exact ih acc

theorem sortSign_minus (cs : List Char) : sortSign ('-' :: cs) = ['-'] := by
  simp [sortSign]

theorem sortSign_plus (cs : List Char) : sortSign ('+' :: cs) = ['+'] := by
  simp [sortSign]

theorem sortSign_other (c : Char) (cs : List Char) (h1 : ¬ c = '+')
    (h2 : ¬ c = '-') : sortSign (c :: cs) = [] := by
  simp [sortSign, h1, h2]

theorem sortBody_no_newline (rest : List Char)
    (h : ¬ rest.getLast? = some '\n') : sortBody rest = rest := by
  rw [sortBody, if_neg h]

theorem sortTermParse_agrees (t : String)
    (h : t.toList.any (fun c => c = '\n') = false) :
    sortTermParse t = some (sortSpecTerm t) := by
  have hno : ∀ c ∈ t.toList, ¬ c = '\n' := by
    rw [List.any_eq_false] at h
    simpa using h
  have hlast : ∀ k : Nat, ¬ ((t.toList.drop k).getLast? = some '\n') :=
    fun k hc =>
      hno _ (List.drop_subset k t.toList (mem_of_getLastOpt _ _ hc)) rfl
  have hany : ∀ k : Nat,
      (t.toList.drop k).any (fun c => c = '\n') = false := by
    intro k
    rw [List.any_eq_false]
    intro c hc
    simpa using hno c (List.drop_subset k t.toList hc)
  cases hcs : t.toList with
  | nil =>
    have h0 : t = "" := by
      rw [← stringMk_toList t, hcs]
    subst h0
    rfl
  | cons c cs =>
    have hdrop1 : t.toList.drop 1 = cs := by rw [hcs]; rfl
    have hdrop0 : t.toList.drop 0 = c :: cs := by rw [hcs]; rfl
    by_cases hm : c = '-'
    · subst hm
      have hsign : sortSign t.toList = ['-'] := by
        rw [hcs]; exact sortSign_minus cs
      have hbody : sortBody (t.toList.drop (sortSign t.toList).length) =
          cs := by
        rw [hsign]
        have hl1 : List.length ['-'] = 1 := rfl
        rw [hl1, hdrop1]
        apply sortBody_no_newline
        rw [← hdrop1]
        exact hlast 1
      have hre : reMatchSortTerm t = some (String.mk ['-'], String.mk cs) := by
        rw [reMatchSortTerm]
        rw [hbody, hsign]
        rw [if_neg (by
          intro hcontra
          rw [← hdrop1, hany 1] at hcontra
          exact Bool.false_ne_true hcontra)]
      rw [sortTermParse, hre, sortSpecTerm]
      rw [if_pos (by rw [hcs]; rfl)]
      rw [hdrop1]
      have hds : (String.mk ['-'] : String) = "-" := rfl
      rw [hds]
      simp
    · by_cases hp : c = '+'
      · subst hp
        have hsign : sortSign t.toList = ['+'] := by
          rw [hcs]; exact sortSign_plus cs
        have hbody : sortBody (t.toList.drop (sortSign t.toList).length) =
            cs := by
          rw [hsign]
          have hl1 : List.length ['+'] = 1 := rfl
          rw [hl1, hdrop1]
          apply sortBody_no_newline
          rw [← hdrop1]
          exact hlast 1
        have hre : reMatchSortTerm t =
            some (String.mk ['+'], String.mk cs) := by
          rw [reMatchSortTerm]
          rw [hbody, hsign]
          rw [if_neg (by
            intro hcontra
            rw [← hdrop1, hany 1] at hcontra
            exact Bool.false_ne_true hcontra)]
        rw [sortTermParse, hre, sortSpecTerm]
        rw [if_neg (by rw [hcs]; simp), if_pos (by rw [hcs]; rfl)]
        rw [hdrop1]
        have hds : (String.mk ['+'] : String) = "+" := rfl
        rw [hds]
        simp
      · have hsign : sortSign t.toList = [] := by
          rw [hcs]; exact sortSign_other c cs hp hm
        have hbody : sortBody (t.toList.drop (sortSign t.toList).length) =
            t.toList := by
          rw [hsign]
          have hl0 : List.length ([] : List Char) = 0 := rfl
          rw [hl0, List.drop_zero]
          apply sortBody_no_newline
          have := hlast 0
          rw [List.drop_zero] at this
          exact this
        have hre : reMatchSortTerm t =
            some (String.mk [], String.mk t.toList) := by
          rw [reMatchSortTerm]
          rw [hbody, hsign]
          rw [if_neg (by
            have h0 := hany 0
            rw [List.drop_zero] at h0
            intro hcontra
            rw [h0] at hcontra
            exact Bool.false_ne_true hcontra)]
        rw [sortTermParse, hre, sortSpecTerm]
        rw [if_neg (by rw [hcs]; simp [hm]), if_neg (by rw [hcs]; simp [hp])]
        rw [stringMk_toList]
        have hde : (String.mk [] : String) = "" := rfl
        rw [hde]
        simp

theorem sortTermParse_none_newline (t : String)
    (h : sortTermParse t = none) : '\n' ∈ t.toList := by
  rw [sortTermParse] at h
  cases hg : reMatchSortTerm t with
  | some dp => rw [hg] at h; cases dp; simp at h
  | none =>
    rw [reMatchSortTerm] at hg
    by_cases hb : ((sortBody
        (t.toList.drop (sortSign t.toList).length)).any
        (fun c => c = '\n')) = true
    · obtain ⟨c, hc, he⟩ := List.any_eq_true.mp hb
      have hcn : c = '\n' := by simpa using he
      subst hcn
      have hrest : '\n' ∈ t.toList.drop (sortSign t.toList).length := by
        rw [sortBody] at hc
        by_cases hl : (t.toList.drop
            (sortSign t.toList).length).getLast? = some '\n'
        · rw [if_pos hl] at hc
          exact List.dropLast_subset _ hc
        · rw [if_neg hl] at hc
          exact hc
      exact List.drop_subset _ _ hrest
    · rw [if_neg hb] at hg
      cases hg

/-- Claim C5 (amended): the `sortby` string is stripped, split on commas,
and each term is run through the regex `^[+-]?(.*)$` with Python newline
semantics: a term containing a newline anywhere but at its very end fails
the match and is skipped rather than parsed (see counterexample); every
newline-free term is parsed exactly as the claim says — optional literal
leading sign, property name trimmed, `-` mapping to descending and
anything else to ascending — and the claim's two examples hold. -/
theorem claim_C5_sortby_parsing :
    (∀ s, parseSortby s =
      (pySplitComma (pyStrip s)).filterMap sortTermParse) ∧
    (∀ t, t.toList.any (fun c => c = '\n') = false →
      sortTermParse t = some (sortSpecTerm t)) ∧
    (∀ t, sortTermParse t = none → '\n' ∈ t.toList) ∧
    parseSortby "-date,price" =
      [{ field := "date", direction := "desc" },
       { field := "price", direction := "asc" }] ∧
    parseSortby " name" = [{ field := "name", direction := "asc" }] := by
  refine ⟨?_, sortTermParse_agrees, sortTermParse_none_newline,
    by decide, by decide⟩
  intro s
  rw [parseSortby, parseSortby_foldl]
  rfl

/-- Witness for C5: a newline-free term parses exactly as the claim
describes. -/
theorem claim_C5_sortby_parsing_witness :
    ("-date".toList.any (fun c => c = '\n') = false) ∧
    sortTermParse "-date" = some (sortSpecTerm "-date") :=
  ⟨by decide, claim_C5_sortby_parsing.2.1 "-date" (by decide)⟩

/-- Counterexample to C5 as stated: the term `"a\nb"` (an internal
newline) is skipped by the regex, so `parseSortby` returns no entry where
the claim's per-term reading produces one. -/
theorem claim_C5_counterexample :
    parseSortby "a\nb" = [] ∧
    sortSpecParse "a\nb" = [{ field := "a\nb", direction := "asc" }] ∧
    ([] : List SortField) ≠
      [{ field := "a\nb", direction := "asc" }] := by
  refine ⟨by decide, by decide, by decide⟩

/-! ### Claim C6 -/

theorem getSearchPrepare_ok_decompose (α : Type) (to_cql2 : α → String)
    (jsonLoads : String → Option JVal) (unquote : String → String)
    (parse : String → Option Int) (defaultLimit : Nat)
    (cf idf : Option (List String)) (bf : Option (List Rat))
    (dtf : Option (List String)) (props : Option (List String))
    (cqlf : Option α) (sb q : Option String) (lim : Nat)
    (off : Option String) (clean : List (String × PyVal))
    (hprep : getSearchPrepare α to_cql2 jsonLoads unquote parse defaultLimit
      cf idf bf dtf props cqlf sb q lim off = .ok clean) :
    ∃ dtj qv cqlArgs,
      getSearchDatetime parse dtf = .ok dtj ∧
      queryValOf jsonLoads unquote q = .ok qv ∧
      cqlArgsOf α to_cql2 jsonLoads cqlf = .ok cqlArgs ∧
      clean = (baseArgsOf cf idf bf lim defaultLimit off qv ++ cqlArgs ++
        dtArgsOf dtj ++ sortArgsOf sb ++
        fieldsArgsOf props).filter keepArg := by
  rw [getSearchPrepare] at hprep
  cases hdt : getSearchDatetime parse dtf with
  | error e => rw [hdt] at hprep; exact Except.noConfusion hprep
  | ok dtj =>
    rw [hdt] at hprep
    cases hqv : queryValOf jsonLoads unquote q with
    | error e => rw [hqv] at hprep; exact Except.noConfusion hprep
    | ok qv =>
      rw [hqv] at hprep
      cases hcq : cqlArgsOf α to_cql2 jsonLoads cqlf with
      | error e => rw [hcq] at hprep; exact Except.noConfusion hprep
      | ok cqlArgs =>
        rw [hcq] at hprep
        refine ⟨dtj, qv, cqlArgs, rfl, rfl, rfl, ?_⟩
        have h2 : Except.ok ((baseArgsOf cf idf bf lim defaultLimit off qv ++
            cqlArgs ++ dtArgsOf dtj ++ sortArgsOf sb ++
            fieldsArgsOf props).filter keepArg) =
            (Except.ok clean : Except PyError (List (String × PyVal))) :=
          hprep
        exact (Except.ok.injEq _ _ ▸ h2).symm

/-- Claim C6 (amended): in the assembled GET-search request, the limit is
the default when the supplied limit is falsy (0) and the supplied value
otherwise; a supplied non-empty property list becomes the fields object
with include = the property-name set and empty exclude; a supplied
non-empty free-text query is URL-decoded then JSON-parsed (a present but
empty query string is passed through raw, see counterexample; a parse
failure propagates `JSONDecodeError`); and every field whose assembled
value is `None` or an empty list is omitted. -/
theorem claim_C6_search_assembly (α : Type) (to_cql2 : α → String)
    (jsonLoads : String → Option JVal) (unquote : String → String)
    (parse : String → Option Int) (defaultLimit : Nat)
    (cf idf : Option (List String)) (bf : Option (List Rat))
    (dtf : Option (List String)) (props : Option (List String))
    (cqlf : Option α) (sb q : Option String) (lim : Nat)
    (off : Option String) (clean : List (String × PyVal)) :
    (getSearchPrepare α to_cql2 jsonLoads unquote parse defaultLimit
        cf idf bf dtf props cqlf sb q lim off = .ok clean →
      ("limit", PyVal.vInt (if lim = 0 then defaultLimit else lim)) ∈
        clean) ∧
    (∀ ps, props = some ps → ps ≠ [] →
      getSearchPrepare α to_cql2 jsonLoads unquote parse defaultLimit
        cf idf bf dtf props cqlf sb q lim off = .ok clean →
      ("fields", PyVal.vFields ps.dedup []) ∈ clean ∧
      (∀ x, x ∈ ps.dedup ↔ x ∈ ps)) ∧
    (∀ sq dtj, q = some sq → sq ≠ "" →
      getSearchDatetime parse dtf = .ok dtj →
      (jsonLoads (unquote sq) = none →
        getSearchPrepare α to_cql2 jsonLoads unquote parse defaultLimit
          cf idf bf dtf props cqlf sb q lim off =
          .error .jsonDecodeError) ∧
      (∀ j, jsonLoads (unquote sq) = some j →
        getSearchPrepare α to_cql2 jsonLoads unquote parse defaultLimit
          cf idf bf dtf props cqlf sb q lim off = .ok clean →
        pyValIsNone (pyOfJson j) = false →
        pyValIsEmptyList (pyOfJson j) = false →
        ("query", pyOfJson j) ∈ clean)) ∧
    (getSearchPrepare α to_cql2 jsonLoads unquote parse defaultLimit
        cf idf bf dtf props cqlf sb q lim off = .ok clean →
      ∀ p ∈ clean, pyValIsNone p.2 = false ∧
        pyValIsEmptyList p.2 = false) := by
  refine ⟨?_, ?_, ?_, ?_⟩
  · intro hprep
    obtain ⟨dtj, qv, cqlArgs, -, -, -, hclean⟩ :=
      getSearchPrepare_ok_decompose α to_cql2 jsonLoads unquote parse
        defaultLimit cf idf bf dtf props cqlf sb q lim off clean hprep
    subst hclean
    apply List.mem_filter.mpr
    refine ⟨?_, rfl⟩
    simp [baseArgsOf, List.mem_append]
  · intro ps hps hne hprep
    obtain ⟨dtj, qv, cqlArgs, -, -, -, hclean⟩ :=
      getSearchPrepare_ok_decompose α to_cql2 jsonLoads unquote parse
        defaultLimit cf idf bf dtf props cqlf sb q lim off clean hprep
    subst hclean
    constructor
    · apply List.mem_filter.mpr
      refine ⟨?_, rfl⟩
      simp only [List.mem_append]
      refine Or.inr ?_
      simp [fieldsArgsOf, hps, hne]
    · intro x
      exact List.mem_dedup
  · intro sq dtj hq hsq hdt
    constructor
    · intro hjson
      rw [getSearchPrepare, hdt]
      have hqv : queryValOf jsonLoads unquote (some sq) =
          .error .jsonDecodeError := by
        rw [queryValOf, if_neg hsq, hjson]
      rw [hq, hqv]
      rfl
    · intro j hjson hprep hn he
      obtain ⟨dtj2, qv, cqlArgs, -, hqv, -, hclean⟩ :=
        getSearchPrepare_ok_decompose α to_cql2 jsonLoads unquote parse
          defaultLimit cf idf bf dtf props cqlf sb q lim off clean hprep
      have hqv2 : qv = pyOfJson j := by
        rw [hq, queryValOf, if_neg hsq, hjson] at hqv
        exact (Except.ok.injEq _ _ ▸ hqv).symm
      subst hclean
      subst hqv2
      apply List.mem_filter.mpr
      refine ⟨?_, by rw [keepArg, hn, he]; rfl⟩
      simp [baseArgsOf, List.mem_append]
  · intro hprep p hp
    obtain ⟨dtj, qv, cqlArgs, -, -, -, hclean⟩ :=
      getSearchPrepare_ok_decompose α to_cql2 jsonLoads unquote parse
        defaultLimit cf idf bf dtf props cqlf sb q lim off clean hprep
    subst hclean
    have hk := List.of_mem_filter hp
    rw [keepArg] at hk
    rw [Bool.and_eq_true] at hk
    have h1 := hk.1
    have h2 := hk.2
    rw [Bool.not_eq_true'] at h1 h2
    exact ⟨h1, h2⟩

/-- Witness for C6: a concrete request with `limit=0`,
`properties=["foo","bar"]` and a query string parsed to an (empty) JSON
object. -/
theorem claim_C6_search_assembly_witness :
    getSearchPrepare Unit (fun _ => "x") (fun _ => some (.jobj []))
      (fun u => u) (fun _ => none) 10 none none none none
      (some ["foo", "bar"]) none none (some "q") 0 none =
      .ok [("limit", .vInt 10), ("query", .vJson (.jobj [])),
           ("fields", .vFields ["foo", "bar"] [])] ∧
    ("limit", PyVal.vInt 10) ∈
      [("limit", PyVal.vInt 10), ("query", PyVal.vJson (.jobj [])),
       ("fields", PyVal.vFields ["foo", "bar"] [])] ∧
    ("fields", PyVal.vFields (["foo", "bar"].dedup) []) ∈
      [("limit", PyVal.vInt 10), ("query", PyVal.vJson (.jobj [])),
       ("fields", PyVal.vFields ["foo", "bar"] [])] ∧
    ("query", pyOfJson (.jobj [])) ∈
      [("limit", PyVal.vInt 10), ("query", PyVal.vJson (.jobj [])),
       ("fields", PyVal.vFields ["foo", "bar"] [])] := by
  have hprep : getSearchPrepare Unit (fun _ => "x")
      (fun _ => some (.jobj [])) (fun u => u) (fun _ => none) 10 none none
      none none (some ["foo", "bar"]) none none (some "q") 0 none =
      .ok [("limit", .vInt 10), ("query", .vJson (.jobj [])),
           ("fields", .vFields ["foo", "bar"] [])] := by rfl
  have h := claim_C6_search_assembly Unit (fun _ => "x")
    (fun _ => some (.jobj [])) (fun u => u) (fun _ => none) 10 none none
    none none (some ["foo", "bar"]) none none (some "q") 0 none
    [("limit", .vInt 10), ("query", .vJson (.jobj [])),
     ("fields", .vFields ["foo", "bar"] [])]
  refine ⟨hprep, h.1 hprep, ((h.2.1 ["foo", "bar"] rfl (by decide)
    hprep).1), ?_⟩
  exact (h.2.2.1 "q" none rfl (by decide) rfl).2 (.jobj []) rfl hprep rfl
    rfl

/-- Counterexample to C6 as stated: a present but empty `query` parameter
is not URL-decoded and JSON-parsed — it is passed through raw (here the
JSON boundary would fail on the empty string, as `json.loads("")` does,
yet the assembly succeeds and keeps `""` verbatim). -/
theorem claim_C6_counterexample :
    getSearchPrepare Unit (fun _ => "x") (fun _ => none) (fun u => u)
      (fun _ => none) 10 none none none none none none none (some "") 10
      none = .ok [("limit", .vInt 10), ("query", .vStr "")] ∧
    (fun _ : String => (none : Option JVal)) ((fun u : String => u) "") =
      none ∧
    (Except.ok [("limit", PyVal.vInt 10), ("query", PyVal.vStr "")] :
      Except PyError (List (String × PyVal))) ≠
      .error .jsonDecodeError := by
  refine ⟨rfl, rfl, fun hc => Except.noConfusion hc⟩

/-! ### Claim C9 -/

/-- Claim C9: the service settings defaults and the CORS-origin
parsing. -/
theorem claim_C9_api_settings :
    ({} : APISettings).name = "TiPg STAC: Use PgSTAC as backend" ∧
    ({} : APISettings).debug = false ∧
    ({} : APISettings).cachecontrol = "public, max-age=3600" ∧
    ({} : APISettings).template_directory = none ∧
    ({} : APISettings).cors_origins = "*" ∧
    parse_cors_origin "a, b ,c" = ["a", "b", "c"] ∧
    parse_cors_origin ({} : APISettings).cors_origins = ["*"] := by
  refine ⟨rfl, rfl, rfl, rfl, rfl, by decide, by decide⟩

/-! ### Claim C10 -/

theorem paginationLinks_path (pth : String) (qs : QS)
    (nx pv : Option String) (pl : List Link)
    (h : paginationLinks pth qs nx pv = .ok pl) :
    ∀ l ∈ pl, l.path = pth := by
  have hs := paginationLinks_ok_shape pth qs nx pv pl h
  subst hs
  intro l hl
  rcases List.mem_append.mp hl with hm | hm
  · cases nx with
    | none => cases hm
    | some t =>
      rw [nextLinkList] at hm
      by_cases ht : t = ""
      · rw [if_pos ht] at hm
        cases hm
      · rw [if_neg ht] at hm
        rw [List.mem_singleton.mp hm]
        rfl
  · cases pv with
    | none => cases hm
    | some t =>
      rw [prevLinkList] at hm
      rw [List.mem_singleton.mp hm]
      rfl

/-- Claim C10: the POST `/search` handler builds its pagination links only
from the request's URL query parameters and the backend envelope, and
points them at the GET search route: two bodies yielding the same envelope
produce identical responses (in particular identical links), and every
next/prev link targets `/search`. -/
theorem claim_C10_post_search_links (β : Type) (backend : β → ItemList)
    (b1 b2 : β) (qs : QS) (ot : Option MediaType)
    (henv : backend b1 = backend b2) :
    (postSearchHandler β backend b1 qs ot =
      postSearchHandler β backend b2 qs ot) ∧
    (∀ r L, postSearchHandler β backend b1 qs ot = .ok r →
      searchRespLinks r = some L →
      ∀ l ∈ L, l.rel = "next" ∨ l.rel = "prev" → l.path = "/search") := by
  constructor
  · rw [postSearchHandler, postSearchHandler, henv]
  · intro r L hok hlinks l hl _
    rw [postSearchHandler] at hok
    cases hmt : ot.getD MediaType.geojson with
    | csv =>
      rw [hmt] at hok
      simp [searchRender] at hok
      subst hok
      simp [searchRespLinks] at hlinks
    | json =>
      rw [hmt] at hok
      simp [searchRender] at hok
      subst hok
      simp [searchRespLinks] at hlinks
    | ndjson =>
      rw [hmt] at hok
      simp [searchRender] at hok
      subst hok
      simp [searchRespLinks] at hlinks
    | html =>
      rw [hmt] at hok
      simp only [searchRender] at hok
      rw [if_neg (by decide)] at hok
      revert hok
      cases hsl : searchLinks qs (backend b1) with
      | error e => intro hok; exact Except.noConfusion hok
      | ok links =>
        intro hok
        simp at hok
        subst hok
        simp [searchRespLinks] at hlinks
        subst hlinks
        rw [searchLinks] at hsl
        exact paginationLinks_path "/search" qs _ _ _ hsl l hl
    | geojsonseq =>
      rw [hmt] at hok
      simp only [searchRender] at hok
      rw [if_neg (by decide)] at hok
      revert hok
      cases hsl : searchLinks qs (backend b1) with
      | error e => intro hok; exact Except.noConfusion hok
      | ok links =>
        intro hok
        simp at hok
        subst hok
        simp [searchRespLinks] at hlinks
        subst hlinks
        rw [searchLinks] at hsl
        exact paginationLinks_path "/search" qs _ _ _ hsl l hl
    | geojson =>
      rw [hmt] at hok
      simp only [searchRender] at hok
      rw [if_neg (by decide)] at hok
      revert hok
      cases hsl : searchLinks qs (backend b1) with
      | error e => intro hok; exact Except.noConfusion hok
      | ok links =>
        intro hok
        simp at hok
        subst hok
        simp [searchRespLinks] at hlinks
        subst hlinks
        rw [searchLinks] at hsl
        exact paginationLinks_path "/search" qs _ _ _ hsl l hl

/-- Witness for C10: two different bodies with the same envelope produce
the same POST-search response. -/
theorem claim_C10_post_search_links_witness :
    ((fun _ : Nat =>
      ({ items := [], matched := 0, next := some "N", prev := none } :
        ItemList)) 0 =
     (fun _ : Nat =>
      ({ items := [], matched := 0, next := some "N", prev := none } :
        ItemList)) 1) ∧
    postSearchHandler Nat
      (fun _ => { items := [], matched := 0, next := some "N",
                  prev := none }) 0 [("a", "1")] none =
    postSearchHandler Nat
      (fun _ => { items := [], matched := 0, next := some "N",
                  prev := none }) 1 [("a", "1")] none :=
  ⟨rfl, (claim_C10_post_search_links Nat
    (fun _ => { items := [], matched := 0, next := some "N", prev := none })
    0 1 [("a", "1")] none rfl).1⟩

end Tipgstac
